import Mathlib

/-!
Verification of the combat-simulation core of the `forest-pests` repository
(TypeScript, Three.js).  The definitions below are a shallow embedding of the
relevant source functions:

* `src/entities/Shield.ts` — destructible barrier made of hexagonal cells
  (`Shield.checkHit`, the cell grid, the bounding box, `hasAliveCells`);
* `src/entities/Alien.ts` — per-entity state (dive sub-state machine
  `startDive` / `resetDive`, fly-in sub-state machine `startFlyIn` /
  `updateFlyIn`);
* `src/entities/AlienFormation.ts` — formation movement (`update`,
  `moveFormation`, `updateAlienPositions`), dive choreography
  (`updateDivingAlien`, `tryStartDive`), intro choreography (`startIntro`,
  `updateIntro`);
* the collision resolver (`CollisionSystem.checkPlayerProjectile`,
  `CollisionSystem.checkAlienProjectile`, `CollisionSystem.checkAll`).

Modelling conventions:

* JavaScript numbers are embedded as `ℚ`.  All arithmetic the source performs
  on the modelled paths is exact (additions, multiplications, divisions by
  nonzero quantities), so `ℚ` is a faithful carrier.
* `Math.sqrt` has no computable exact analogue on `ℚ`; every function whose
  result depends on a square root takes the square-root routine as an explicit
  argument `sq : ℚ → ℚ` (the value the source obtains from `Math.sqrt`).
  Theorems either hold for every such routine or carry a pointwise hypothesis
  about the value `sq` returns on the radicand actually used.
* Comparisons of the form `dist < bound` where `dist = Math.sqrt dsq` and both
  sides are nonnegative are embedded as the equivalent squared comparison
  `dsq < bound^2` (strict monotonicity of squaring on nonnegatives); this
  avoids `sq` where the source only uses the root inside a comparison.  The
  collision resolver itself already compares squared distances
  (`distanceToSquared`), which is embedded verbatim.
* `Math.sin(x * Math.PI * k)` appears only in cosmetic offsets of the dive
  paths; functions using it take `sinPi : ℚ → ℚ` (representing
  `t ↦ Math.sin(t * Math.PI)`) as an argument and the theorems hold for every
  such function.
* Rendering-only state (instance matrices, colors, shimmer phase, rotation,
  animation frames, `Math.random`-driven cosmetic animation) is omitted, as
  the spec places the view binding out of scope; `Math.random` draws that
  influence simulation state are passed in as explicit arguments.
-/

/-- A 3-component vector of exact rationals, standing for `THREE.Vector3`. -/
structure Vec3 where
  x : ℚ
  y : ℚ
  z : ℚ
deriving Repr, DecidableEq

/-- Squared Euclidean distance; `v.distanceToSquared w` in Three.js, and the
square of `v.distanceTo w`. -/
def Vec3.distSq (a b : Vec3) : ℚ :=
  (a.x - b.x) ^ 2 + (a.y - b.y) ^ 2 + (a.z - b.z) ^ 2

instance : Inhabited Vec3 := ⟨⟨0, 0, 0⟩⟩

/-! ### Configuration constants (`GameConfig.ts`) -/

/-- `GameConfig.shields.width`. -/
def shieldWidth : ℚ := 24
/-- `GameConfig.shields.height`. -/
def shieldHeight : ℚ := 30
/-- `Shield.hexRadius` (private field, fixed at construction). -/
def hexRadius : ℚ := 3
/-- `Shield.hexDepth`. -/
def hexDepth : ℚ := 2
/-- `GameConfig.shields.playerDamageRadius`. -/
def playerDamageRadius : ℚ := 1
/-- Blast radius of a high-damage barrier hit:
`this.hexRadius * GameConfig.shields.playerDamageRadius`. -/
def blastRadius : ℚ := hexRadius * playerDamageRadius

/-! ### Barrier cells (`Shield.ts`) -/

/-- One hexagonal barrier cell (`HexCell` in `Shield.ts`).  The rendering
fields `instanceId` and `phase` are omitted (view-only). -/
structure HexCell where
  gx : ℕ
  gy : ℕ
  worldX : ℚ
  worldY : ℚ
  worldZ : ℚ
  health : ℚ
  maxHealth : ℚ
  alive : Bool
deriving Repr, DecidableEq

/-- World-space anchor of a cell, `new THREE.Vector3(cell.worldX, cell.worldY,
cell.worldZ)`. -/
def HexCell.pos (c : HexCell) : Vec3 := ⟨c.worldX, c.worldY, c.worldZ⟩

/-- Result record of `Shield.checkHit` (`ShieldHitResult`). -/
structure ShieldHitResult where
  hit : Bool
  position : Option Vec3
deriving Repr, DecidableEq

/-- The closest-alive-cell search loop at the top of `Shield.checkHit`:
skips cells with `!cell.alive || cell.health <= 0`, and keeps the cell when
`dist < hitThreshold && dist < closestDist` (embedded as squared
comparisons; `closestDist` starts at `Infinity`, embedded as `none`).
Returns the index of the chosen cell, its squared distance, and its position
(the source's `closestCell` / `closestDist` / `hitPosition` variables). -/
def findClosestCell (point : Vec3) (threshSq : ℚ) :
    List HexCell → ℕ → Option (ℕ × ℚ × Vec3) → Option (ℕ × ℚ × Vec3)
  | [], _, best => best
  | c :: rest, i, best =>
    let dsq := Vec3.distSq point c.pos
    if c.alive && !decide (c.health ≤ 0) && decide (dsq < threshSq) &&
        (match best with | none => true | some b => decide (dsq < b.2.1)) then
      findClosestCell point threshSq rest (i + 1) (some (i, dsq, c.pos))
    else
      findClosestCell point threshSq rest (i + 1) best

/-- The blast loop of `Shield.checkHit` for `damage > 1`: every alive cell
within `blastRadius` of the primary hit position (`dist <= blastRadius`,
embedded squared) gets `health = 0; alive = false`. -/
def blastCells (hitPos : Vec3) (cells : List HexCell) : List HexCell :=
  cells.map fun c =>
    if c.alive ∧ Vec3.distSq hitPos c.pos ≤ blastRadius ^ 2 then
      { c with health := 0, alive := false }
    else c

/-- The single-target branch of `Shield.checkHit` (`damage <= 1`):
`closestCell.health -= damage; if (closestCell.health <= 0) closestCell.alive
= false;` applied at index `j`. -/
def damageClosestCell (j : ℕ) (damage : ℚ) (cells : List HexCell) : List HexCell :=
  match cells.get? j with
  | none => cells
  | some c =>
    cells.set j { c with
      health := c.health - damage,
      alive := if c.health - damage ≤ 0 then false else c.alive }

/-- The observable state effect of `Shield.updateInstancedMesh`, which is
called at the end of every successful `checkHit`: besides rebuilding the
(unmodelled) instance matrices it executes
`if (!cell.alive || cell.health <= 0) { cell.alive = false; }` on every
cell. -/
def normalizeCells (cells : List HexCell) : List HexCell :=
  cells.map fun c => if ¬ c.alive ∨ c.health ≤ 0 then { c with alive := false } else c

/-- `Shield.checkHit(point, radius, damage)` acting on the cell list.
`hitThreshold = this.hexRadius * 1.5 + radius`.  Returns the new cell list
together with the `ShieldHitResult`. -/
def Shield.checkHit (point : Vec3) (radius damage : ℚ) (cells : List HexCell) :
    List HexCell × ShieldHitResult :=
  let hitThreshold := hexRadius * 1.5 + radius
  match findClosestCell point (hitThreshold ^ 2) cells 0 none with
  | none => (cells, ⟨false, none⟩)
  | some (j, _, hitPos) =>
    let cells' := if 1 < damage then blastCells hitPos cells else damageClosestCell j damage cells
    (normalizeCells cells', ⟨true, some hitPos⟩)

/-- `Shield.hasAliveCells`. -/
def Shield.hasAliveCells (cells : List HexCell) : Bool :=
  cells.any fun c => c.alive ∧ 0 < c.health

/-- The cell-lattice construction `Shield.createHexGrid`, run at barrier
construction: rows offset for hex packing, clipped to the shield footprint,
every cell starting at `health = cellHealth`, `alive = true`.
`⌈24 / 5.4⌉ + 1 = 6` columns and `⌈30 / 4.8⌉ + 1 = 8` rows. -/
def Shield.createHexGrid (position : Vec3) (cellHealth : ℚ) : List HexCell :=
  let hexWidth := hexRadius * 1.8
  let hexHeight := hexRadius * 1.6
  let cols := (⌈shieldWidth / hexWidth⌉ + 1).toNat
  let rows := (⌈shieldHeight / hexHeight⌉ + 1).toNat
  ((List.range rows).map fun (row : ℕ) =>
    ((List.range cols).filterMap fun (col : ℕ) =>
      let xOffset := ((row % 2 : ℕ) : ℚ) * (hexWidth / 2)
      let localX := -shieldWidth / 2 + (col : ℚ) * hexWidth + xOffset
      let localY := (row : ℚ) * hexHeight
      if localX < -shieldWidth / 2 - hexRadius ∨
          localX > shieldWidth / 2 + hexRadius ∨
          localY > shieldHeight + hexRadius then
        none
      else
        some { gx := col, gy := row,
               worldX := position.x + localX,
               worldY := position.y + localY,
               worldZ := position.z,
               health := cellHealth, maxHealth := cellHealth,
               alive := true })).flatten

/-- Axis-aligned box, standing for `THREE.Box3`. -/
structure Box3 where
  min : Vec3
  max : Vec3
deriving Repr, DecidableEq

/-- `THREE.Box3.containsPoint`: componentwise `min ≤ p ≤ max`. -/
def Box3.containsPoint (b : Box3) (p : Vec3) : Prop :=
  b.min.x ≤ p.x ∧ p.x ≤ b.max.x ∧
  b.min.y ≤ p.y ∧ p.y ≤ b.max.y ∧
  b.min.z ≤ p.z ∧ p.z ≤ b.max.z

instance (b : Box3) (p : Vec3) : Decidable (b.containsPoint p) := by
  unfold Box3.containsPoint; infer_instance

/-- A barrier: its anchor position together with its cells.  (The width /
height / depth fields of the source class are the fixed configuration
constants above.) -/
structure Shield where
  position : Vec3
  cells : List HexCell
deriving Repr, DecidableEq

/-- `Shield.getBoundingBox`. -/
def Shield.getBoundingBox (s : Shield) : Box3 :=
  ⟨⟨s.position.x - shieldWidth / 2 - hexRadius * 2,
    s.position.y - hexRadius * 2,
    s.position.z - hexDepth - hexRadius * 2⟩,
   ⟨s.position.x + shieldWidth / 2 + hexRadius * 2,
    s.position.y + shieldHeight + hexRadius * 2,
    s.position.z + hexDepth + hexRadius * 2⟩⟩

/-! ### Entities (`Alien.ts`) -/

/-- `AlienType`. -/
inductive AlienType | crab | bug | squid
deriving Repr, DecidableEq

/-- `DiveState`. -/
inductive DiveState | none | diving | returning
deriving Repr, DecidableEq

/-- `FlyInState`. -/
inductive FlyInState | waiting | flying | arrived
deriving Repr, DecidableEq

/-- One swarm entity (`class Alien`).  The voxel meshes, materials, rotation
and 2-frame animation are rendering-only and omitted.  The bounding sphere
`getBoundingSphere()` is derived from the mesh; it is modelled as centered on
the entity's position with an entity-supplied radius `boundingRadius`. -/
structure Alien where
  alive : Bool := true
  type : AlienType := AlienType.crab
  points : ℤ := 10
  gridX : ℕ := 0
  gridY : ℕ := 0
  pos : Vec3 := ⟨0, 0, 0⟩
  visible : Bool := true
  brightness : ℚ := 1
  boundingRadius : ℚ := 1
  diveState : DiveState := DiveState.none
  diveProgress : ℚ := 0
  diveStartPos : Vec3 := ⟨0, 0, 0⟩
  formationPos : Vec3 := ⟨0, 0, 0⟩
  diveTargetX : ℚ := 0
  lastDiveShotTime : ℚ := 0
  flyInState : FlyInState := FlyInState.arrived
  flyInStartPos : Vec3 := ⟨0, 0, 0⟩
  flyInProgress : ℚ := 0
  flyInDelay : ℚ := 0
deriving Repr, DecidableEq

instance : Inhabited Alien := ⟨{}⟩

/-- `Alien.updateBrightness(aliensInFront)`: brightness
`max(0.3, 1.0 - aliensInFront * 0.15)` (the early return when the value is
unchanged has no observable state effect). -/
def Alien.updateBrightness (aliensInFront : ℕ) (a : Alien) : Alien :=
  { a with brightness := max (3/10) (1 - (aliensInFront : ℚ) * (15/100)) }

/-- `Alien.hide()`: mark invisible and dead. -/
def Alien.hide (a : Alien) : Alien :=
  { a with visible := false, alive := false }

/-- `Alien.isDiving()`. -/
def Alien.isDiving (a : Alien) : Bool :=
  a.diveState ≠ DiveState.none

/-- `Alien.startDive(targetX, currentTime)`: a no-op unless the entity is a
squid in the default dive state; otherwise enters `DIVING` from the current
position at full brightness. -/
def Alien.startDive (targetX currentTime : ℚ) (a : Alien) : Alien :=
  if a.type ≠ AlienType.squid ∨ a.diveState ≠ DiveState.none then a
  else
    ({ a with
        diveState := DiveState.diving,
        diveProgress := 0,
        diveStartPos := a.pos,
        formationPos := a.pos,
        diveTargetX := targetX,
        lastDiveShotTime := currentTime }).updateBrightness 0

/-- `Alien.resetDive()` (the rotation reset is view-only). -/
def Alien.resetDive (a : Alien) : Alien :=
  { a with diveState := DiveState.none, diveProgress := 0 }

/-- `Alien.startFlyIn(startPos, targetPos, delay)`. -/
def Alien.startFlyIn (startPos targetPos : Vec3) (delay : ℚ) (a : Alien) : Alien :=
  { a with
      flyInState := FlyInState.waiting,
      flyInStartPos := startPos,
      formationPos := targetPos,
      flyInProgress := 0,
      flyInDelay := delay,
      pos := startPos,
      visible := false }

/-- The eased interpolation the flying branch of `Alien.updateFlyIn` writes:
`t = 1 - (1 - progress)^2`, position lerped from `flyInStartPos` to
`formationPos` by `t`. -/
def flyInEasePos (startPos targetPos : Vec3) (p : ℚ) : Vec3 :=
  let t := 1 - (1 - p) ^ 2
  ⟨startPos.x + (targetPos.x - startPos.x) * t,
   startPos.y + (targetPos.y - startPos.y) * t,
   startPos.z + (targetPos.z - startPos.z) * t⟩

/-- `Alien.updateFlyIn(deltaTime, elapsedTime)`; returns the updated entity
and the arrival flag the source returns.  `sq` is the `Math.sqrt` routine
used for `this.flyInStartPos.distanceTo(this.formationPos)`; the travel-roll
rotation and the random 2-frame animation are view-only and omitted. -/
def Alien.updateFlyIn (sq : ℚ → ℚ) (deltaTime elapsedTime : ℚ) (a : Alien) :
    Alien × Bool :=
  match a.flyInState with
  | FlyInState.arrived => (a, true)
  | FlyInState.waiting =>
    if elapsedTime ≥ a.flyInDelay then
      ({ a with flyInState := FlyInState.flying, visible := true }, false)
    else (a, false)
  | FlyInState.flying =>
    let flySpeed : ℚ := 120
    let totalDistance := sq (Vec3.distSq a.flyInStartPos a.formationPos)
    let p := a.flyInProgress + flySpeed * deltaTime / totalDistance
    if p ≥ 1 then
      ({ a with
          flyInState := FlyInState.arrived,
          flyInProgress := 1,
          pos := a.formationPos }, true)
    else
      ({ a with
          flyInProgress := p,
          pos := flyInEasePos a.flyInStartPos a.formationPos p }, false)

/-- `Alien.isFlyingIn()`. -/
def Alien.isFlyingIn (a : Alien) : Bool :=
  a.flyInState ≠ FlyInState.arrived

/-! ### Formation (`AlienFormation.ts`) -/

/-- `GameConfig.aliens.columns`. -/
def alienColumns : ℕ := 11
/-- `GameConfig.aliens.rows`. -/
def alienRows : ℕ := 5
/-- `GameConfig.aliens.spacingX`. -/
def spacingX : ℚ := 16
/-- `GameConfig.aliens.spacingZ`. -/
def spacingZ : ℚ := 36
/-- `GameConfig.aliens.startDistance`. -/
def startDistance : ℚ := 400
/-- `GameConfig.aliens.startHeight`. -/
def startHeight : ℚ := 60
/-- `GameConfig.aliens.dropDistance`. -/
def dropDistance : ℚ := 15
/-- `GameConfig.aliens.baseSpeed`. -/
def alienBaseSpeed : ℚ := 4
/-- `GameConfig.aliens.edgeMargin`. -/
def edgeMargin : ℚ := 111
/-- `GameConfig.gameplay.speedMultiplierMin`. -/
def speedMultiplierMin : ℚ := 3/10
/-- `GameConfig.timing.baseMoveInterval`. -/
def baseMoveInterval : ℚ := 55
/-- `DIVE_CONFIG.diveSpeed`. -/
def diveSpeed : ℚ := 60
/-- `DIVE_CONFIG.returnSpeed`. -/
def returnSpeed : ℚ := 80
/-- `DIVE_CONFIG.heightBoost`. -/
def heightBoost : ℚ := 40
/-- `DIVE_CONFIG.waveAmplitude`. -/
def waveAmplitude : ℚ := 30
/-- `DIVE_CONFIG.waveFrequency`. -/
def waveFrequency : ℚ := 3
/-- `DIVE_CONFIG.maxConcurrentDivers`. -/
def maxConcurrentDivers : ℚ := 5
/-- `DIVE_CONFIG.maxConcurrentDiversBase`. -/
def maxConcurrentDiversBase : ℚ := 1
/-- `DIVE_CONFIG.minDiveInterval`. -/
def minDiveInterval : ℚ := 3
/-- `DIVE_CONFIG.maxDiveInterval`. -/
def maxDiveInterval : ℚ := 8
/-- `DIVE_CONFIG.minDiveIntervalLate`. -/
def minDiveIntervalLate : ℚ := 8/10
/-- `DIVE_CONFIG.maxDiveIntervalLate`. -/
def maxDiveIntervalLate : ℚ := 2
/-- `DIVE_CONFIG.retreatZ`: the retreat depth diving entities must not pass. -/
def retreatZ : ℚ := -200

/-- The formation component state (`class AlienFormation`).  The scene handle
is view-only and omitted; `shootChance` is retained as plain data. -/
structure AlienFormation where
  aliens : List Alien := []
  formationX : ℚ := 0
  formationZ : ℚ := -startDistance
  formationY : ℚ := startHeight
  direction : ℚ := 1
  moveTimer : ℚ := 0
  waveMultiplier : ℚ := 1
  shootChance : ℚ := 1/200
  currentWave : ℕ := 1
  diveTimer : ℚ := 0
  nextDiveTime : ℚ := 5
  playerX : ℚ := 0
  currentGameTime : ℚ := 0
  introElapsedTime : ℚ := 0
  introActive : Bool := false
deriving Repr, DecidableEq

/-- The grid-derived world position of an entity, as computed inside
`AlienFormation.updateAlienPositions`:
`x = -totalWidth/2 + gridX * spacingX + formationX`,
`z = formationZ - gridY * spacingZ`, `y = formationY`. -/
def AlienFormation.gridPos (f : AlienFormation) (a : Alien) : Vec3 :=
  let totalWidth := ((alienColumns : ℚ) - 1) * spacingX
  ⟨-totalWidth / 2 + (a.gridX : ℚ) * spacingX + f.formationX,
   f.formationY,
   f.formationZ - (a.gridY : ℚ) * spacingZ⟩

/-- `AlienFormation.updateAlienPositions`: every alive entity's
`formationPos` is refreshed to its grid-derived position (so returning divers
chase the live formation), and every alive, non-diving entity is re-pinned to
that position; diving entities keep their own position; dead entities are
untouched. -/
def AlienFormation.updateAlienPositions (f : AlienFormation) : AlienFormation :=
  { f with aliens := f.aliens.map fun a =>
      if a.alive then
        { a with
            formationPos := f.gridPos a,
            pos := if a.isDiving then a.pos else f.gridPos a }
      else a }

/-- The alive-entity horizontal extent scan in `AlienFormation.moveFormation`
(`leftmost` / `rightmost`, starting from `±Infinity`, here an `Option` of the
pair). -/
def AlienFormation.aliveExtent (f : AlienFormation) : Option (ℚ × ℚ) :=
  let halfWidth := ((alienColumns : ℚ) - 1) * spacingX / 2
  f.aliens.foldl
    (fun acc a =>
      if a.alive then
        let x := -halfWidth + (a.gridX : ℚ) * spacingX + f.formationX
        match acc with
        | none => some (x, x)
        | some (lo, hi) => some (min lo x, max hi x)
      else acc)
    none

/-- `AlienFormation.moveFormation`: one discrete sweep step — shift
`formationX`, recompute the alive extent, on boundary overrun flip the
direction, drop `formationZ` by `dropDistance` and undo the overshooting
shift; finally re-pin entities via `updateAlienPositions` (the 2-frame
animation toggle is view-only). -/
def AlienFormation.moveFormation (f : AlienFormation) : AlienFormation :=
  let f1 := { f with formationX := f.formationX + alienBaseSpeed * f.direction }
  let f2 :=
    match f1.aliveExtent with
    | none => f1
    | some (leftmost, rightmost) =>
      if rightmost > edgeMargin ∨ leftmost < -edgeMargin then
        let d := -f1.direction
        { f1 with direction := d, formationZ := f1.formationZ + dropDistance,
                  formationX := f1.formationX + alienBaseSpeed * d }
      else f1
  f2.updateAlienPositions

/-- `AlienFormation.updateDivingAlien(alien, deltaTime)`.  `sinPi t` stands
for `Math.sin(t * Math.PI)`; `sq` is `Math.sqrt` (used for the return-path
distance).  Rotation banking and random animation are view-only and
omitted. -/
def AlienFormation.updateDivingAlien (sinPi sq : ℚ → ℚ) (deltaTime : ℚ)
    (a : Alien) : Alien :=
  match a.diveState with
  | DiveState.none => a
  | DiveState.diving =>
    -- Safety check: already at or past the retreat point - retreat now.
    if a.pos.z ≥ retreatZ then
      { a with diveState := DiveState.returning, diveProgress := 0,
               diveStartPos := a.pos }
    else
      let startPos := a.diveStartPos
      let totalDistance := |startPos.z - retreatZ|
      -- Safety: if no distance to travel, retreat.
      if totalDistance < 1 then
        { a with diveState := DiveState.returning, diveProgress := 0,
                 diveStartPos := a.pos }
      else
        let progress := a.diveProgress + diveSpeed * deltaTime / totalDistance
        let t := min progress 1
        let z := startPos.z + (retreatZ - startPos.z) * t
        let heightCurve := sinPi t
        let baseY := startPos.y + (10 - startPos.y) * t
        let y := baseY + heightBoost * heightCurve
        let waveOffset := sinPi (t * waveFrequency) * waveAmplitude * (1 - t)
        let x := startPos.x + (a.diveTargetX - startPos.x) * t + waveOffset
        if t ≥ 1 then
          { a with diveState := DiveState.returning, diveProgress := 0,
                   diveStartPos := ⟨x, y, z⟩, pos := ⟨x, y, z⟩ }
        else
          { a with diveProgress := progress, pos := ⟨x, y, z⟩ }
  | DiveState.returning =>
    let targetPos := a.formationPos
    let startPos := a.diveStartPos
    let returnDistance := sq (Vec3.distSq startPos targetPos)
    if returnDistance < 1 then
      -- Already at formation position.
      a.resetDive
    else
      let progress := a.diveProgress + returnSpeed * deltaTime / returnDistance
      if progress ≥ 1 then
        { a.resetDive with pos := targetPos }
      else
        let t := progress
        let heightCurve := sinPi t * (1/2)
        let x := startPos.x + (targetPos.x - startPos.x) * t
        let baseY := startPos.y + (targetPos.y - startPos.y) * t
        let y := baseY + heightBoost * (1/2) * heightCurve
        let z := startPos.z + (targetPos.z - startPos.z) * t
        { a with diveProgress := progress, pos := ⟨x, y, z⟩ }

/-- `AlienFormation.updateAlienBrightness`: per column, the alive non-diving
entities sorted by row get brightness by their sorted index; alive diving
entities are set to full brightness.  The sorted index is embedded as the
count of alive non-diving same-column entities with a strictly smaller row
(identical to the sort position whenever rows are distinct within a column,
which holds for every formation the source constructs). -/
def AlienFormation.updateAlienBrightness (f : AlienFormation) : AlienFormation :=
  { f with aliens := f.aliens.map fun a =>
      if a.alive && !a.isDiving && decide (a.gridX < alienColumns) then
        let inFront := (f.aliens.filter fun b =>
          b.alive && !b.isDiving && b.gridX == a.gridX &&
            decide (b.gridY < a.gridY)).length
        a.updateBrightness inFront
      else if a.alive && a.isDiving then a.updateBrightness 0
      else a }

/-- Indices of the entities `AlienFormation.tryStartDive` considers available
(`alive`, squid, not already diving). -/
def AlienFormation.availableSquidIdx (f : AlienFormation) : List ℕ :=
  (f.aliens.enum.filter fun p =>
    p.2.alive && p.2.type == AlienType.squid && !p.2.isDiving).map Prod.fst

/-- `AlienFormation.tryStartDive`, with `rPick` the `Math.random()` draw used
for `Math.floor(Math.random() * availableSquids.length)`.  Requires a live
non-squid escort, respects the wave-scaled concurrent-diver cap, and promotes
one randomly chosen available squid via `Alien.startDive`. -/
def AlienFormation.tryStartDive (rPick : ℚ) (f : AlienFormation) : AlienFormation :=
  let hasNonSquidAliens := f.aliens.any fun a => a.alive && a.type != AlienType.squid
  if !hasNonSquidAliens then f
  else
    let currentDivers := (f.aliens.filter fun a => a.alive && a.isDiving).length
    let waveProgress := min (((f.currentWave : ℚ) - 1) / 99) 1
    let maxDivers := ⌊maxConcurrentDiversBase +
      (maxConcurrentDivers - maxConcurrentDiversBase) * waveProgress⌋
    if (currentDivers : ℤ) ≥ maxDivers then f
    else
      let avail := f.availableSquidIdx
      if avail.isEmpty then f
      else
        let pick := (⌊rPick * (avail.length : ℚ)⌋).toNat
        match avail.get? pick with
        | none => f  -- unreachable for draws in [0, 1)
        | some j =>
          match f.aliens.get? j with
          | none => f
          | some squid =>
            { f with aliens := f.aliens.set j (squid.startDive f.playerX f.currentGameTime) }

/-- `AlienFormation.scheduleNextDive`, with `rTime` the `Math.random()` draw
for the next dive delay. -/
def AlienFormation.scheduleNextDive (rTime : ℚ) (f : AlienFormation) : AlienFormation :=
  let waveProgress := min (((f.currentWave : ℚ) - 1) / 99) 1
  let minInterval := minDiveInterval + (minDiveIntervalLate - minDiveInterval) * waveProgress
  let maxInterval := maxDiveInterval + (maxDiveIntervalLate - maxDiveInterval) * waveProgress
  { f with diveTimer := 0,
           nextDiveTime := minInterval + rTime * (maxInterval - minInterval) }

/-- `AlienFormation.updateDiveAttacks(deltaTime)`: accumulate the dive timer,
possibly start and reschedule a dive, then advance every alive diving
entity. -/
def AlienFormation.updateDiveAttacks (sinPi sq : ℚ → ℚ) (rPick rTime deltaTime : ℚ)
    (f : AlienFormation) : AlienFormation :=
  let f1 := { f with diveTimer := f.diveTimer + deltaTime }
  let f2 := if f1.diveTimer ≥ f1.nextDiveTime
    then (f1.tryStartDive rPick).scheduleNextDive rTime else f1
  { f2 with aliens := f2.aliens.map fun a =>
      if a.alive && a.isDiving then
        AlienFormation.updateDivingAlien sinPi sq deltaTime a
      else a }

/-- `AlienFormation.update(deltaTime, playerX, gameTime)`: returns the new
state and the alive count the source returns.  When every entity is dead the
function returns `0` before touching any state.  `rPick` / `rTime` are the
`Math.random()` draws dive scheduling may consume. -/
def AlienFormation.update (sinPi sq : ℚ → ℚ) (deltaTime playerX gameTime rPick rTime : ℚ)
    (f : AlienFormation) : AlienFormation × ℕ :=
  let aliveCount := (f.aliens.filter fun a => a.alive).length
  if aliveCount = 0 then (f, 0)
  else
    let f1 := { f with playerX := playerX, currentGameTime := gameTime }
    let speedMultiplier :=
      max speedMultiplierMin ((aliveCount : ℚ) / ((alienColumns : ℚ) * (alienRows : ℚ)))
    let moveInterval := baseMoveInterval * speedMultiplier / 60
    let newTimer := f1.moveTimer + deltaTime * f1.waveMultiplier
    let f2 := if newTimer ≥ moveInterval
      then ({ f1 with moveTimer := 0 }).moveFormation
      else { f1 with moveTimer := newTimer }
    let f3 := if 1 < f2.currentWave
      then f2.updateDiveAttacks sinPi sq rPick rTime deltaTime
      else f2
    (f3, aliveCount)

/-- The randomized off-field spawn point `AlienFormation.startIntro` assigns:
three weighted spawn sides (left below 0.15, right below 0.3, else
top/space), each component driven by its own `Math.random()` draw. -/
def introSpawnPos (side rx ry rz : ℚ) : Vec3 :=
  if side < 15/100 then ⟨-250 - rx * 100, 120 + ry * 80, -500 - rz * 150⟩
  else if side < 3/10 then ⟨250 + rx * 100, 120 + ry * 80, -500 - rz * 150⟩
  else ⟨(rx - 1/2) * 400, 150 + ry * 100, -600 - rz * 200⟩

/-- The staggered delay `AlienFormation.startIntro` assigns: back rows first
(`(rows - 1 - gridY) * 0.3`) plus a per-entity jitter (`rDelay * 0.4`). -/
def introDelay (rDelay : ℚ) (gridY : ℕ) : ℚ :=
  ((alienRows : ℚ) - 1 - (gridY : ℚ)) * (3/10) + rDelay * (4/10)

/-- `AlienFormation.startIntro`: activate the intro, reset its clock and set
up every entity's fly-in (spawn point, grid-derived target, staggered delay).
`draws i = (side, rx, ry, rz, rDelay)` are the `Math.random()` draws consumed
for the `i`-th entity. -/
def AlienFormation.startIntro (draws : ℕ → ℚ × ℚ × ℚ × ℚ × ℚ)
    (f : AlienFormation) : AlienFormation :=
  { f with
      introActive := true,
      introElapsedTime := 0,
      aliens := f.aliens.enum.map fun p =>
        let d := draws p.1
        p.2.startFlyIn (introSpawnPos d.1 d.2.1 d.2.2.1 d.2.2.2.1) (f.gridPos p.2)
          (introDelay d.2.2.2.2 p.2.gridY) }

/-- `AlienFormation.updateIntro(deltaTime)`: advance the intro clock, run
every entity's `updateFlyIn` against it and report completion; on completion
deactivate the intro and recompute brightness. -/
def AlienFormation.updateIntro (sq : ℚ → ℚ) (deltaTime : ℚ) (f : AlienFormation) :
    AlienFormation × Bool :=
  if !f.introActive then (f, true)
  else
    let elapsed := f.introElapsedTime + deltaTime
    let stepped := f.aliens.map fun a => a.updateFlyIn sq deltaTime elapsed
    let f1 := { f with introElapsedTime := elapsed, aliens := stepped.map Prod.fst }
    if stepped.all Prod.snd then
      ({ f1 with introActive := false }.updateAlienBrightness, true)
    else (f1, false)

/-- Iterated `updateIntro` under a constant frame time: the state and return
value after `n` calls (`n = 0` is the state before any call, with a vacuous
`false`). -/
def AlienFormation.introIter (sq : ℚ → ℚ) (deltaTime : ℚ) (f : AlienFormation) :
    ℕ → AlienFormation × Bool
  | 0 => (f, false)
  | n + 1 => AlienFormation.updateIntro sq deltaTime (f.introIter sq deltaTime n).1

/-! ### Collision resolution (`CollisionSystem.ts`) -/

/-- `ProjectileType`. -/
inductive ProjectileType | player | alien
deriving Repr, DecidableEq

/-- A projectile as the collision resolver consumes it: its position and its
bounding-sphere radius (the sphere is centered on the position), plus the
owner tag. -/
structure Projectile where
  type : ProjectileType
  pos : Vec3
  radius : ℚ
deriving Repr, DecidableEq

/-- A `result.alienHits` record: the entity (by index), its points and the
kill position. -/
structure AlienHit where
  alienIdx : ℕ
  points : ℤ
  position : Vec3
deriving Repr, DecidableEq

/-- A `result.shieldHits` record: the barrier (by index), the primary impact
position and the owner flag. -/
structure ShieldHit where
  shieldIdx : ℕ
  position : Vec3
  isPlayerShot : Bool
deriving Repr, DecidableEq

/-- `CollisionResult`. -/
structure CollisionResult where
  destroyedProjectiles : List Projectile := []
  alienHits : List AlienHit := []
  shieldHits : List ShieldHit := []
  playerHit : Bool := false
deriving Repr, DecidableEq

/-- The entity scan of `CollisionSystem.checkPlayerProjectile`: the first
alive entity whose bounding sphere overlaps the projectile's
(`sphere.center.distanceToSquared(alienSphere.center) < radiusSumSq`,
embedded verbatim as a squared comparison). -/
def findFirstAlienHit (proj : Projectile) : List Alien → ℕ → Option ℕ
  | [], _ => none
  | a :: rest, i =>
    if a.alive && decide (Vec3.distSq proj.pos a.pos < (proj.radius + a.boundingRadius) ^ 2)
    then some i
    else findFirstAlienHit proj rest (i + 1)

/-- The barrier scan shared by both projectile kinds: for each barrier in
order, if the coarse bounding box contains the projectile position, run the
fine `Shield.checkHit`; the first barrier reporting a hit is updated and the
scan stops (a miss leaves the barrier's cells unchanged, which
`Shield.checkHit` guarantees).  Returns the new barrier list and, on a hit,
the barrier index with the primary impact position. -/
def shieldScan (pnt : Vec3) (radius damage : ℚ) :
    List Shield → List Shield × Option (ℕ × Vec3)
  | [] => ([], none)
  | s :: rest =>
    if (s.getBoundingBox).containsPoint pnt then
      match Shield.checkHit pnt radius damage s.cells with
      | (cells', ⟨true, some p⟩) => ({ s with cells := cells' } :: rest, some (0, p))
      | _ =>
        let (rest', o) := shieldScan pnt radius damage rest
        (s :: rest', o.map fun q => (q.1 + 1, q.2))
    else
      let (rest', o) := shieldScan pnt radius damage rest
      (s :: rest', o.map fun q => (q.1 + 1, q.2))

/-- `CollisionSystem.checkPlayerProjectile`: test the projectile against the
entities first (first alive overlap wins: the entity is hidden, a kill record
and a spent-projectile record are pushed, and the barriers are never
consulted); only if no entity is hit, run the barrier scan with high damage
(50). -/
def CollisionSystem.checkPlayerProjectile (proj : Projectile)
    (aliens : List Alien) (shields : List Shield) (res : CollisionResult) :
    List Alien × List Shield × CollisionResult :=
  match findFirstAlienHit proj aliens 0 with
  | some i =>
    match aliens.get? i with
    | none => (aliens, shields, res)
    | some a =>
      (aliens.set i a.hide, shields,
       { res with
           alienHits := res.alienHits ++ [⟨i, a.points, a.pos⟩],
           destroyedProjectiles := res.destroyedProjectiles ++ [proj] })
  | none =>
    match shieldScan proj.pos proj.radius 50 shields with
    | (shields', some (k, p)) =>
      (aliens, shields',
       { res with
           shieldHits := res.shieldHits ++ [⟨k, p, true⟩],
           destroyedProjectiles := res.destroyedProjectiles ++ [proj] })
    | (shields', none) => (aliens, shields', res)

/-- `GameConfig.player.zPosition` is the depth the turret sits at; the alien
projectile hit test uses only the player's x / z, supplied here as a
position vector. -/
def CollisionSystem.checkAlienProjectile (proj : Projectile)
    (shields : List Shield) (playerPos : Vec3) (res : CollisionResult) :
    List Shield × CollisionResult :=
  match shieldScan proj.pos proj.radius 1 shields with
  | (shields', some (k, p)) =>
    (shields',
     { res with
         shieldHits := res.shieldHits ++ [⟨k, p, false⟩],
         destroyedProjectiles := res.destroyedProjectiles ++ [proj] })
  | (shields', none) =>
    let dx := proj.pos.x - playerPos.x
    let dz := proj.pos.z - playerPos.z
    let horizontalDistSq := dx * dx + dz * dz
    let hitRadius := 8 + proj.radius
    if horizontalDistSq < hitRadius * hitRadius then
      (shields',
       { res with
           playerHit := true,
           destroyedProjectiles := res.destroyedProjectiles ++ [proj] })
    else (shields', res)

/-- `CollisionSystem.checkAll`: fold every projectile through the resolver
appropriate to its owner, threading entity and barrier state and accumulating
the batch result. -/
def CollisionSystem.checkAll (projectiles : List Projectile)
    (aliens : List Alien) (shields : List Shield) (playerPos : Vec3) :
    List Alien × List Shield × CollisionResult :=
  projectiles.foldl
    (fun st proj =>
      match st with
      | (als, shs, res) =>
        match proj.type with
        | ProjectileType.player => CollisionSystem.checkPlayerProjectile proj als shs res
        | ProjectileType.alien =>
          let (shs', res') := CollisionSystem.checkAlienProjectile proj shs playerPos res
          (als, shs', res'))
    (aliens, shields, ⟨[], [], [], false⟩)

/-! ### Verification predicates -/

/-- The barrier cell invariant stated in the spec: a cell with `health <= 0`
is always `alive == false`. -/
def ShieldInv (cells : List HexCell) : Prop :=
  ∀ c ∈ cells, c.health ≤ 0 → c.alive = false

instance (cells : List HexCell) : Decidable (ShieldInv cells) := by
  unfold ShieldInv; infer_instance

/-- Pointwise health comparison of two equally long cell lists: every cell of
the first list has health at most that of the corresponding cell of the
second. -/
def cellsHealthLE : List HexCell → List HexCell → Bool
  | [], [] => true
  | a :: as, b :: bs => decide (a.health ≤ b.health) && cellsHealthLE as bs
  | _, _ => false

/-- A sequence of `Shield.checkHit` calls (each given by impact point, radius
and damage) applied in order to a cell list. -/
def applyHits (calls : List (Vec3 × ℚ × ℚ)) (cells : List HexCell) : List HexCell :=
  calls.foldl (fun cs c => (Shield.checkHit c.1 c.2.1 c.2.2 cs).1) cells

/-- A formation state mid-intro: the given entities and intro clock with the
intro active, over an arbitrary carrier of the remaining fields.  `startIntro`
produces exactly such a state (clock 0), and `updateIntro` maps one such
state to the next. -/
def AlienFormation.introState (f : AlienFormation) (als : List Alien) (e : ℚ) :
    AlienFormation :=
  { f with aliens := als, introElapsedTime := e, introActive := true }

/-- The per-entity overlap test of the player-projectile entity scan: alive,
and bounding spheres overlapping under the squared-distance comparison. -/
def Projectile.overlapsAlien (proj : Projectile) (a : Alien) : Prop :=
  a.alive = true ∧ Vec3.distSq proj.pos a.pos < (proj.radius + a.boundingRadius) ^ 2

instance (proj : Projectile) (a : Alien) : Decidable (proj.overlapsAlien a) := by
  unfold Projectile.overlapsAlien; infer_instance

/-! ### Theorems -/

/-- C7: calling `startDive` on an entity that cannot dive (not the back/squid
kind) or that is not in the default motion state is a no-op: every field of
the entity keeps its prior value. -/
theorem startDive_invalid_request_noop (a : Alien) (targetX currentTime : ℚ)
    (h : a.type ≠ AlienType.squid ∨ a.diveState ≠ DiveState.none) :
    a.startDive targetX currentTime = a := by
  unfold Alien.startDive
  rw [if_pos h]

/-- Witness for C7 at a concrete non-squid entity. -/
theorem startDive_invalid_request_noop_witness :
    (({ type := AlienType.crab } : Alien).type ≠ AlienType.squid ∨
      ({ type := AlienType.crab } : Alien).diveState ≠ DiveState.none) ∧
    ({ type := AlienType.crab } : Alien).startDive 5 2 = { type := AlienType.crab } :=
  ⟨Or.inl (by decide),
   startDive_invalid_request_noop { type := AlienType.crab } 5 2 (Or.inl (by decide))⟩

/-- C10: when every entity is dead, `AlienFormation.update` returns alive
count `0` and the state entirely unchanged: no timer accumulation, no sweep
step, no dive scheduling, no stored player position or game time. -/
theorem update_all_dead_unchanged (sinPi sq : ℚ → ℚ)
    (deltaTime playerX gameTime rPick rTime : ℚ) (f : AlienFormation)
    (h : (f.aliens.filter fun a => a.alive).length = 0) :
    f.update sinPi sq deltaTime playerX gameTime rPick rTime = (f, 0) := by
  unfold AlienFormation.update
  simp only [h, if_pos]

/-- Witness for C10 on a formation whose only entity is dead. -/
theorem update_all_dead_unchanged_witness :
    ((({ aliens := [{ alive := false }] } : AlienFormation).aliens.filter
        fun a => a.alive).length = 0) ∧
    ({ aliens := [{ alive := false }] } : AlienFormation).update
        (fun _ => 0) (fun _ => 0) 1 3 7 0 0 =
      ({ aliens := [{ alive := false }] }, 0) :=
  ⟨by decide,
   update_all_dead_unchanged (fun _ => 0) (fun _ => 0) 1 3 7 0 0 _ (by decide)⟩

/-- C5: a diving entity can never pass the retreat line.  (1) If at entry to
an advance its actual depth already equals or exceeds `retreatZ`, it is
force-transitioned to `Returning` on that same call, writing no further dive
position.  (2) Otherwise, any position the dive interpolation writes has
`z ≤ retreatZ` (depth interpolates from the dive start toward `retreatZ`
with progress clamped to 1), for every square-root routine and every sine
table. -/
theorem diving_never_passes_retreat_line :
    (∀ (sinPi sq : ℚ → ℚ) (deltaTime : ℚ) (a : Alien),
      a.diveState = DiveState.diving → a.pos.z ≥ retreatZ →
      AlienFormation.updateDivingAlien sinPi sq deltaTime a =
        { a with diveState := DiveState.returning, diveProgress := 0,
                 diveStartPos := a.pos }) ∧
    (∀ (sinPi sq : ℚ → ℚ) (deltaTime : ℚ) (a : Alien),
      a.diveState = DiveState.diving → a.pos.z < retreatZ →
      a.diveStartPos.z ≤ retreatZ →
      (AlienFormation.updateDivingAlien sinPi sq deltaTime a).pos.z ≤ retreatZ) := by
  constructor
  · intro sinPi sq deltaTime a h1 h2
    simp only [AlienFormation.updateDivingAlien, h1]
    rw [if_pos h2]
  · intro sinPi sq deltaTime a h1 h2 h3
    simp only [AlienFormation.updateDivingAlien, h1]
    rw [if_neg (not_le.mpr h2)]
    split_ifs with hd ht
    · exact le_of_lt h2
    · simp only
      set t := min (a.diveProgress + diveSpeed * deltaTime / |a.diveStartPos.z - retreatZ|) 1 with htdef
      have htle : t ≤ 1 := min_le_right _ _
      have hprod : (a.diveStartPos.z - retreatZ) * (1 - t) ≤ 0 :=
        mul_nonpos_of_nonpos_of_nonneg (by linarith) (by linarith)
      nlinarith [hprod]
    · simp only
      set t := min (a.diveProgress + diveSpeed * deltaTime / |a.diveStartPos.z - retreatZ|) 1 with htdef
      have htle : t ≤ 1 := min_le_right _ _
      have hprod : (a.diveStartPos.z - retreatZ) * (1 - t) ≤ 0 :=
        mul_nonpos_of_nonpos_of_nonneg (by linarith) (by linarith)
      nlinarith [hprod]

/-- The spawn point `startIntro` assigns is always at height 120 or more (the
three spawn sides start at y = 120, 120 and 150, each plus a nonnegative
random offset). -/
theorem introSpawnPos_y_ge (side rx ry rz : ℚ) (h : 0 ≤ ry) :
    120 ≤ (introSpawnPos side rx ry rz).y := by
  unfold introSpawnPos
  split_ifs <;> simp only <;> linarith

/-- C9: every degenerate (zero-travel) interpolation in the core is resolved
without dividing by zero.  (1) A dive whose start depth is within 1 unit of
the retreat depth transitions straight to `Returning` before the progress
division.  (2) A return whose start is within 1 unit (as computed by the
square-root routine) of the formation position resets straight to
`Formation` before the progress division.  (3) Every entity `startIntro`
configures has a spawn point at strictly positive distance from its
formation target (the spawn height is at least 120 while the formation
height is 60), so the fly-in progress update never divides by a zero
start-to-target distance. -/
theorem degenerate_interpolations_guarded :
    (∀ (sinPi sq : ℚ → ℚ) (deltaTime : ℚ) (a : Alien),
      a.diveState = DiveState.diving → a.pos.z < retreatZ →
      |a.diveStartPos.z - retreatZ| < 1 →
      AlienFormation.updateDivingAlien sinPi sq deltaTime a =
        { a with diveState := DiveState.returning, diveProgress := 0,
                 diveStartPos := a.pos }) ∧
    (∀ (sinPi sq : ℚ → ℚ) (deltaTime : ℚ) (a : Alien),
      a.diveState = DiveState.returning →
      sq (Vec3.distSq a.diveStartPos a.formationPos) < 1 →
      AlienFormation.updateDivingAlien sinPi sq deltaTime a = a.resetDive) ∧
    (∀ (f : AlienFormation) (draws : ℕ → ℚ × ℚ × ℚ × ℚ × ℚ),
      f.formationY = startHeight →
      (∀ i, 0 ≤ (draws i).2.2.1) →
      ∀ a ∈ (f.startIntro draws).aliens,
        0 < Vec3.distSq a.flyInStartPos a.formationPos) := by
  refine ⟨?_, ?_, ?_⟩
  · intro sinPi sq deltaTime a h1 h2 h3
    simp only [AlienFormation.updateDivingAlien, h1]
    rw [if_neg (not_le.mpr h2), if_pos h3]
  · intro sinPi sq deltaTime a h1 h2
    simp only [AlienFormation.updateDivingAlien, h1]
    rw [if_pos h2]
  · intro f draws hY hry a ha
    simp only [AlienFormation.startIntro, List.mem_map] at ha
    obtain ⟨p, _, rfl⟩ := ha
    simp only [Alien.startFlyIn]
    have hy : 120 ≤ (introSpawnPos (draws p.1).1 (draws p.1).2.1 (draws p.1).2.2.1
        (draws p.1).2.2.2.1).y := introSpawnPos_y_ge _ _ _ _ (hry p.1)
    have hty : (f.gridPos p.2).y = 60 := by
      simp [AlienFormation.gridPos, hY, startHeight]
    unfold Vec3.distSq
    rw [hty]
    set sy := (introSpawnPos (draws p.1).1 (draws p.1).2.1 (draws p.1).2.2.1
        (draws p.1).2.2.2.1).y
    have h60 : 60 ≤ sy - 60 := by linarith
    nlinarith [sq_nonneg ((introSpawnPos (draws p.1).1 (draws p.1).2.1 (draws p.1).2.2.1
        (draws p.1).2.2.2.1).x - (f.gridPos p.2).x),
      sq_nonneg ((introSpawnPos (draws p.1).1 (draws p.1).2.1 (draws p.1).2.2.1
        (draws p.1).2.2.2.1).z - (f.gridPos p.2).z)]

/-- Witness for C5: a diver already at depth -150 (at or past the retreat
line) retreats immediately; a diver at depth -250 heading for the retreat
line never writes a position past it. -/
theorem diving_never_passes_retreat_line_witness :
    (({ diveState := DiveState.diving, pos := ⟨0, 50, -150⟩,
        diveStartPos := ⟨0, 60, -400⟩ } : Alien).pos.z ≥ retreatZ) ∧
    (AlienFormation.updateDivingAlien (fun _ => 0) (fun _ => 0) 1
        { diveState := DiveState.diving, pos := ⟨0, 50, -150⟩,
          diveStartPos := ⟨0, 60, -400⟩ } =
      { diveState := DiveState.returning, diveProgress := 0,
        pos := ⟨0, 50, -150⟩, diveStartPos := ⟨0, 50, -150⟩ }) ∧
    ((AlienFormation.updateDivingAlien (fun _ => 0) (fun _ => 0) 1
        { diveState := DiveState.diving, pos := ⟨0, 50, -250⟩,
          diveStartPos := ⟨0, 60, -400⟩ }).pos.z ≤ retreatZ) :=
  ⟨by decide,
   diving_never_passes_retreat_line.1 (fun _ => 0) (fun _ => 0) 1
     { diveState := DiveState.diving, pos := ⟨0, 50, -150⟩,
       diveStartPos := ⟨0, 60, -400⟩ } (by decide) (by decide),
   diving_never_passes_retreat_line.2 (fun _ => 0) (fun _ => 0) 1
     { diveState := DiveState.diving, pos := ⟨0, 50, -250⟩,
       diveStartPos := ⟨0, 60, -400⟩ } (by decide) (by decide) (by decide)⟩

/-- Witness for C9 at concrete inputs: a dive whose start depth sits exactly
on the retreat line retreats immediately; a return started at zero distance
from the formation slot resets immediately; the single entity of a freshly
configured intro has a strictly positive spawn-to-target distance. -/
theorem degenerate_interpolations_guarded_witness :
    (AlienFormation.updateDivingAlien (fun _ => 0) (fun _ => 0) 1
        { diveState := DiveState.diving, pos := ⟨0, 50, -250⟩,
          diveStartPos := ⟨0, 60, -200⟩ } =
      { diveState := DiveState.returning, diveProgress := 0,
        pos := ⟨0, 50, -250⟩, diveStartPos := ⟨0, 50, -250⟩ }) ∧
    (AlienFormation.updateDivingAlien (fun _ => 0) (fun _ => 0) 1
        { diveState := DiveState.returning, pos := ⟨0, 60, -300⟩,
          diveStartPos := ⟨0, 60, -300⟩, formationPos := ⟨0, 60, -300⟩ } =
      ({ diveState := DiveState.returning, pos := ⟨0, 60, -300⟩,
         diveStartPos := ⟨0, 60, -300⟩,
         formationPos := ⟨0, 60, -300⟩ } : Alien).resetDive) ∧
    (0 < Vec3.distSq
      ((({} : Alien).startFlyIn (introSpawnPos 1 0 0 0)
          (({ aliens := [{}] } : AlienFormation).gridPos {}) (introDelay 0 0)).flyInStartPos)
      ((({} : Alien).startFlyIn (introSpawnPos 1 0 0 0)
          (({ aliens := [{}] } : AlienFormation).gridPos {}) (introDelay 0 0)).formationPos)) :=
  ⟨degenerate_interpolations_guarded.1 (fun _ => 0) (fun _ => 0) 1
     { diveState := DiveState.diving, pos := ⟨0, 50, -250⟩,
       diveStartPos := ⟨0, 60, -200⟩ } (by decide) (by decide)
     (by norm_num [abs_lt, retreatZ]),
   degenerate_interpolations_guarded.2.1 (fun _ => 0) (fun _ => 0) 1
     { diveState := DiveState.returning, pos := ⟨0, 60, -300⟩,
       diveStartPos := ⟨0, 60, -300⟩, formationPos := ⟨0, 60, -300⟩ }
     (by decide) (by decide),
   degenerate_interpolations_guarded.2.2 { aliens := [{}] } (fun _ => (1, 0, 0, 0, 0))
     rfl (fun _ => le_refl 0) _ (List.mem_singleton.mpr rfl)⟩

/-- Characterization of a successful closest-cell search: the result is
either the incoming accumulator or an entry of the scanned list, and in the
latter case the selected cell is alive with positive health (a dead cell is
never selected), the reported position is that cell's anchor and the squared
distance is below the threshold. -/
theorem findClosestCell_some_spec (point : Vec3) (thresh : ℚ) (l : List HexCell) :
    ∀ (n : ℕ) (best : Option (ℕ × ℚ × Vec3)) (j : ℕ) (d : ℚ) (hp : Vec3),
      findClosestCell point thresh l n best = some (j, d, hp) →
      best = some (j, d, hp) ∨
      ∃ k c, l.get? k = some c ∧ j = n + k ∧ c.alive = true ∧ 0 < c.health ∧
        d = Vec3.distSq point c.pos ∧ hp = c.pos ∧ d < thresh := by
  induction l with
  | nil =>
    intro n best j d hp h
    exact Or.inl h
  | cons c rest ih =>
    intro n best j d hp h
    simp only [findClosestCell] at h
    split at h
    case isTrue hcond =>
      rcases ih (n + 1) _ j d hp h with hbest | ⟨k, c', hk, hj, hrest⟩
      · -- the accumulator passed down is the head entry
        simp only [Option.some.injEq, Prod.mk.injEq] at hbest
        obtain ⟨hj, hd, hhp⟩ := hbest
        simp only [Bool.and_eq_true, Bool.not_eq_eq_eq_not, Bool.not_true,
          decide_eq_true_eq, decide_eq_false_iff_not] at hcond
        refine Or.inr ⟨0, c, rfl, by omega, hcond.1.1.1, not_le.mp hcond.1.1.2, ?_, ?_, ?_⟩
        · exact hd.symm
        · exact hhp.symm
        · exact hd ▸ hcond.1.2
      · exact Or.inr ⟨k + 1, c', hk, by omega, hrest⟩
    case isFalse hcond =>
      rcases ih (n + 1) _ j d hp h with hbest | ⟨k, c', hk, hj, hrest⟩
      · exact Or.inl hbest
      · exact Or.inr ⟨k + 1, c', hk, by omega, hrest⟩

/-- The mesh-refresh normalization never changes a cell when the invariant
already holds. -/
theorem normalizeCells_of_inv (cells : List HexCell) (h : ShieldInv cells) :
    normalizeCells cells = cells := by
  unfold normalizeCells
  induction cells with
  | nil => rfl
  | cons c rest ih =>
    have hc := h c (List.mem_cons_self c rest)
    have hrest : ShieldInv rest := fun d hd => h d (List.mem_cons_of_mem c hd)
    simp only [List.map_cons, ih hrest]
    congr 1
    by_cases halive : c.alive = true
    · have : ¬ c.health ≤ 0 := fun hle => by simp [hc hle] at halive
      rw [if_neg]
      simp [halive, this]
    · simp only [Bool.not_eq_true] at halive
      rw [if_pos (Or.inl (by simp [halive]))]
      cases c
      simp_all

/-- The mesh-refresh normalization establishes the invariant
unconditionally. -/
theorem shieldInv_normalizeCells (cells : List HexCell) :
    ShieldInv (normalizeCells cells) := by
  intro c hc
  unfold normalizeCells at hc
  rw [List.mem_map] at hc
  obtain ⟨c0, _, rfl⟩ := hc
  by_cases hcond : ¬ c0.alive = true ∨ c0.health ≤ 0
  · rw [if_pos hcond]; intro _; rfl
  · rw [if_neg hcond]
    push_neg at hcond
    intro hle
    exact absurd hle (not_le.mpr hcond.2)

/-- A `checkHit` that reports a miss leaves the cells untouched. -/
theorem checkHit_miss_eq (point : Vec3) (radius damage : ℚ) (cells : List HexCell)
    (h : (Shield.checkHit point radius damage cells).2.hit = false) :
    (Shield.checkHit point radius damage cells).1 = cells := by
  unfold Shield.checkHit at h ⊢
  rcases hf : findClosestCell point ((hexRadius * 1.5 + radius) ^ 2) cells 0 none with
    _ | ⟨j, d, hp⟩
  · simp [hf]
  · simp [hf] at h

/-- `checkHit` preserves the cell invariant. -/
theorem checkHit_preserves_inv (point : Vec3) (radius damage : ℚ)
    (cells : List HexCell) (h : ShieldInv cells) :
    ShieldInv (Shield.checkHit point radius damage cells).1 := by
  simp only [Shield.checkHit]
  rcases hf : findClosestCell point ((hexRadius * 1.5 + radius) ^ 2) cells 0 none with
    _ | ⟨j, d, hp⟩
  · simpa using h
  · simpa using shieldInv_normalizeCells
      (if 1 < damage then blastCells hp cells else damageClosestCell j damage cells)

/-- `cellsHealthLE` is reflexive. -/
theorem cellsHealthLE_refl (l : List HexCell) : cellsHealthLE l l = true := by
  induction l with
  | nil => rfl
  | cons c rest ih => simp [cellsHealthLE, ih]

/-- `cellsHealthLE` is transitive. -/
theorem cellsHealthLE_trans (a b c : List HexCell)
    (h1 : cellsHealthLE a b = true) (h2 : cellsHealthLE b c = true) :
    cellsHealthLE a c = true := by
  induction a generalizing b c with
  | nil =>
    cases b with
    | nil => cases c with
      | nil => rfl
      | cons _ _ => simp [cellsHealthLE] at h2
    | cons _ _ => simp [cellsHealthLE] at h1
  | cons x xs ih =>
    cases b with
    | nil => simp [cellsHealthLE] at h1
    | cons y ys =>
      cases c with
      | nil => simp [cellsHealthLE] at h2
      | cons z zs =>
        simp only [cellsHealthLE, Bool.and_eq_true, decide_eq_true_eq] at h1 h2 ⊢
        exact ⟨le_trans h1.1 h2.1, ih ys zs h1.2 h2.2⟩

/-- A map that pointwise does not raise health yields `cellsHealthLE`. -/
theorem cellsHealthLE_map (l : List HexCell) (f : HexCell → HexCell)
    (h : ∀ c ∈ l, (f c).health ≤ c.health) :
    cellsHealthLE (l.map f) l = true := by
  induction l with
  | nil => rfl
  | cons c rest ih =>
    simp only [List.map_cons, cellsHealthLE, Bool.and_eq_true, decide_eq_true_eq]
    exact ⟨h c (List.mem_cons_self c rest),
      ih fun d hd => h d (List.mem_cons_of_mem c hd)⟩

/-- Replacing one entry with a cell of lower health yields `cellsHealthLE`. -/
theorem cellsHealthLE_set (l : List HexCell) (j : ℕ) (c' : HexCell)
    (h : ∀ c, l.get? j = some c → c'.health ≤ c.health) :
    cellsHealthLE (l.set j c') l = true := by
  induction l generalizing j with
  | nil => rfl
  | cons c rest ih =>
    cases j with
    | zero =>
      simp only [List.set, cellsHealthLE, Bool.and_eq_true, decide_eq_true_eq]
      exact ⟨h c rfl, cellsHealthLE_refl rest⟩
    | succ k =>
      simp only [List.set, cellsHealthLE, Bool.and_eq_true, decide_eq_true_eq]
      exact ⟨le_refl _, ih k h⟩

/-- Normalization never changes any cell's health. -/
theorem cellsHealthLE_normalize (l : List HexCell) :
    cellsHealthLE (normalizeCells l) l = true := by
  apply cellsHealthLE_map
  intro c _
  by_cases hcond : ¬ c.alive = true ∨ c.health ≤ 0
  · rw [if_pos hcond]
  · rw [if_neg hcond]

/-- One `checkHit` call with nonnegative damage never raises any cell's
health (stated under the cell invariant, which every reachable barrier
state satisfies). -/
theorem checkHit_healthLE (point : Vec3) (radius damage : ℚ) (cells : List HexCell)
    (hdmg : 0 ≤ damage) (hinv : ShieldInv cells) :
    cellsHealthLE (Shield.checkHit point radius damage cells).1 cells = true := by
  simp only [Shield.checkHit]
  rcases hf : findClosestCell point ((hexRadius * 1.5 + radius) ^ 2) cells 0 none with
    _ | ⟨j, d, hp⟩
  · simpa using cellsHealthLE_refl cells
  · simp only
    apply cellsHealthLE_trans _
      (if 1 < damage then blastCells hp cells else damageClosestCell j damage cells) _
      (cellsHealthLE_normalize _)
    by_cases hd : 1 < damage
    · rw [if_pos hd]
      apply cellsHealthLE_map
      intro c hc
      by_cases hcond : c.alive = true ∧ Vec3.distSq hp c.pos ≤ blastRadius ^ 2
      · rw [if_pos hcond]
        by_contra hlt
        push_neg at hlt
        exact absurd (hinv c hc (le_of_lt hlt)) (by simp [hcond.1])
      · rw [if_neg hcond]
    · rw [if_neg hd]
      unfold damageClosestCell
      rcases hg : cells.get? j with _ | c
      · exact cellsHealthLE_refl cells
      · apply cellsHealthLE_set
        intro c0 hc0
        rw [hg] at hc0
        injection hc0 with hc0
        subst hc0
        simp only
        linarith

/-- Every cell the barrier constructor creates starts alive at the uniform
`cellHealth`; with positive starting health the cell invariant holds from
construction. -/
theorem createHexGrid_inv (position : Vec3) (cellHealth : ℚ) (h : 0 < cellHealth) :
    ShieldInv (Shield.createHexGrid position cellHealth) := by
  intro c hc
  simp only [Shield.createHexGrid, List.mem_flatten, List.mem_map] at hc
  obtain ⟨l, ⟨row, _, rfl⟩, hcl⟩ := hc
  rw [List.mem_filterMap] at hcl
  obtain ⟨col, _, hcol⟩ := hcl
  split at hcol
  · exact absurd hcol (by simp)
  · injection hcol with hcol
    subst hcol
    intro hle
    exact absurd (lt_of_lt_of_le h hle) (by simp)

/-- Setting the alive flag of an already dead cell changes nothing. -/
theorem HexCell.withAliveFalse_eq (c : HexCell) (h : c.alive = false) :
    ({ c with alive := false } : HexCell) = c := by
  cases c
  simp_all

/-- A dead cell is never damaged: `checkHit` returns it bit-for-bit
unchanged, whatever the impact point, radius and damage. -/
theorem checkHit_dead_cell_unchanged (point : Vec3) (radius damage : ℚ)
    (cells : List HexCell) (i : ℕ) (c : HexCell)
    (hget : cells.get? i = some c) (hdead : c.alive = false) :
    (Shield.checkHit point radius damage cells).1.get? i = some c := by
  simp only [Shield.checkHit]
  rcases hf : findClosestCell point ((hexRadius * 1.5 + radius) ^ 2) cells 0 none with
    _ | ⟨j, d, hp⟩
  · simpa using hget
  · simp only
    rcases findClosestCell_some_spec _ _ _ 0 none j d hp hf with hbest | ⟨k, cj, hk, hjk, halive, _⟩
    · exact absurd hbest (by simp)
    · have hj : cells.get? j = some cj := by rwa [hjk, Nat.zero_add]
      have hij : i ≠ j := by
        intro hij
        rw [hij, hj] at hget
        injection hget with hget
        rw [hget] at halive
        simp [hdead] at halive
      unfold normalizeCells
      rw [List.get?_map]
      by_cases hdmg : 1 < damage
      · rw [if_pos hdmg]
        unfold blastCells
        rw [List.get?_map, hget]
        simp [hdead, HexCell.withAliveFalse_eq c hdead]
      · rw [if_neg hdmg]
        unfold damageClosestCell
        rw [hj]
        simp only
        rw [List.get?_set_ne _ _ (fun hji => hij hji.symm), hget]
        simp [hdead, HexCell.withAliveFalse_eq c hdead]

/-- C4: the barrier invariants.  (1) No `checkHit` call with nonnegative
damage ever raises any cell's health.  (2) Every `checkHit` call preserves
the invariant that a cell with `health ≤ 0` has `alive = false`.  (3) A dead
cell is never selected as the nearest cell of a hit.  (4) A dead cell is
never damaged (it is returned unchanged).  (5) Any sequence of `checkHit`
calls with nonnegative damages is monotonically non-increasing on every
cell's health and preserves the invariant.  (6) The invariant holds from
barrier construction whenever the uniform starting health is positive. -/
theorem barrier_cell_invariants :
    (∀ (point : Vec3) (radius damage : ℚ) (cells : List HexCell),
      0 ≤ damage → ShieldInv cells →
      cellsHealthLE (Shield.checkHit point radius damage cells).1 cells = true) ∧
    (∀ (point : Vec3) (radius damage : ℚ) (cells : List HexCell),
      ShieldInv cells → ShieldInv (Shield.checkHit point radius damage cells).1) ∧
    (∀ (point : Vec3) (thresh : ℚ) (cells : List HexCell) (j : ℕ) (d : ℚ) (hp : Vec3),
      findClosestCell point thresh cells 0 none = some (j, d, hp) →
      ∃ c, cells.get? j = some c ∧ c.alive = true ∧ 0 < c.health) ∧
    (∀ (point : Vec3) (radius damage : ℚ) (cells : List HexCell) (i : ℕ) (c : HexCell),
      cells.get? i = some c → c.alive = false →
      (Shield.checkHit point radius damage cells).1.get? i = some c) ∧
    (∀ (calls : List (Vec3 × ℚ × ℚ)) (cells : List HexCell),
      (∀ call ∈ calls, 0 ≤ call.2.2) → ShieldInv cells →
      cellsHealthLE (applyHits calls cells) cells = true ∧
        ShieldInv (applyHits calls cells)) ∧
    (∀ (position : Vec3) (cellHealth : ℚ), 0 < cellHealth →
      ShieldInv (Shield.createHexGrid position cellHealth)) := by
  refine ⟨checkHit_healthLE, checkHit_preserves_inv, ?_, checkHit_dead_cell_unchanged,
    ?_, createHexGrid_inv⟩
  · intro point thresh cells j d hp hfind
    rcases findClosestCell_some_spec point thresh cells 0 none j d hp hfind with
      hbest | ⟨k, c, hk, hjk, halive, hhealth, _⟩
    · exact absurd hbest (by simp)
    · exact ⟨c, by rwa [hjk, Nat.zero_add], halive, hhealth⟩
  · intro calls
    induction calls with
    | nil =>
      intro cells _ hinv
      exact ⟨cellsHealthLE_refl cells, hinv⟩
    | cons call rest ih =>
      intro cells hdmg hinv
      have hstep := checkHit_healthLE call.1 call.2.1 call.2.2 cells
        (hdmg call (List.mem_cons_self call rest)) hinv
      have hinv1 := checkHit_preserves_inv call.1 call.2.1 call.2.2 cells hinv
      have hrest := ih (Shield.checkHit call.1 call.2.1 call.2.2 cells).1
        (fun c hc => hdmg c (List.mem_cons_of_mem call hc)) hinv1
      refine ⟨?_, ?_⟩
      · exact cellsHealthLE_trans _ _ _ hrest.1 hstep
      · exact hrest.2

/-- Witness for C4 on a two-cell barrier (one alive cell at the origin, one
dead cell), hit at the origin with unit radius and unit damage. -/
theorem barrier_cell_invariants_witness :
    ((0 : ℚ) ≤ 1) ∧
    ShieldInv [⟨0, 0, 0, 0, 0, 3, 3, true⟩, ⟨1, 0, 9, 0, 0, 0, 3, false⟩] ∧
    (cellsHealthLE
      (Shield.checkHit ⟨0, 0, 0⟩ 1 1
        [⟨0, 0, 0, 0, 0, 3, 3, true⟩, ⟨1, 0, 9, 0, 0, 0, 3, false⟩]).1
      [⟨0, 0, 0, 0, 0, 3, 3, true⟩, ⟨1, 0, 9, 0, 0, 0, 3, false⟩] = true) ∧
    ShieldInv (Shield.checkHit ⟨0, 0, 0⟩ 1 1
      [⟨0, 0, 0, 0, 0, 3, 3, true⟩, ⟨1, 0, 9, 0, 0, 0, 3, false⟩]).1 ∧
    ((Shield.checkHit ⟨0, 0, 0⟩ 1 1
        [⟨0, 0, 0, 0, 0, 3, 3, true⟩, ⟨1, 0, 9, 0, 0, 0, 3, false⟩]).1.get? 1 =
      some ⟨1, 0, 9, 0, 0, 0, 3, false⟩) ∧
    (cellsHealthLE
      (applyHits [(⟨0, 0, 0⟩, 1, 1), (⟨0, 0, 0⟩, 1, 1)]
        [⟨0, 0, 0, 0, 0, 3, 3, true⟩, ⟨1, 0, 9, 0, 0, 0, 3, false⟩])
      [⟨0, 0, 0, 0, 0, 3, 3, true⟩, ⟨1, 0, 9, 0, 0, 0, 3, false⟩] = true) ∧
    ShieldInv (Shield.createHexGrid ⟨0, 0, -100⟩ 3) :=
  ⟨by norm_num,
   by decide,
   barrier_cell_invariants.1 ⟨0, 0, 0⟩ 1 1 _ (by norm_num) (by decide),
   barrier_cell_invariants.2.1 ⟨0, 0, 0⟩ 1 1 _ (by decide),
   barrier_cell_invariants.2.2.2.1 ⟨0, 0, 0⟩ 1 1 _ 1 _ rfl rfl,
   (barrier_cell_invariants.2.2.2.2.1 [(⟨0, 0, 0⟩, 1, 1), (⟨0, 0, 0⟩, 1, 1)] _
     (by decide) (by decide)).1,
   barrier_cell_invariants.2.2.2.2.2 ⟨0, 0, -100⟩ 3 (by norm_num)⟩

/-- The blast loop preserves the cell invariant. -/
theorem blastCells_inv (hp : Vec3) (cells : List HexCell) (h : ShieldInv cells) :
    ShieldInv (blastCells hp cells) := by
  intro c hc
  unfold blastCells at hc
  rw [List.mem_map] at hc
  obtain ⟨c0, hc0, rfl⟩ := hc
  by_cases hcond : c0.alive = true ∧ Vec3.distSq hp c0.pos ≤ blastRadius ^ 2
  · rw [if_pos hcond]; intro _; rfl
  · rw [if_neg hcond]; exact h c0 hc0

/-- The single-target decrement preserves the cell invariant. -/
theorem damageClosestCell_inv (j : ℕ) (damage : ℚ) (cells : List HexCell)
    (h : ShieldInv cells) : ShieldInv (damageClosestCell j damage cells) := by
  unfold damageClosestCell
  rcases hg : cells.get? j with _ | c0
  · exact h
  · intro c hc
    rcases List.mem_or_eq_of_mem_set hc with hmem | rfl
    · exact h c hmem
    · intro hle
      simp only
      by_cases hzero : c0.health - damage ≤ 0
      · rw [if_pos hzero]
      · rw [if_neg hzero] at hle ⊢
        exact absurd hle hzero

/-- C2: semantics of `Shield.checkHit` when an alive cell lies within the
hit threshold of the impact point.  The reported impact is the selected
(alive) cell's position.  With damage above the single-hit threshold
(`damage > 1`) every alive cell within the blast radius of that cell's
position — not of the impact point — ends at `health = 0, alive = false`,
and every other cell (strictly outside the radius, or already dead) is
returned unchanged.  With `damage ≤ 1`, only the selected nearest cell is
touched: its health drops by `damage` and it dies exactly when the result is
`≤ 0`. -/
theorem checkHit_blast_and_single_semantics
    (point : Vec3) (radius damage : ℚ) (cells : List HexCell)
    (j : ℕ) (d : ℚ) (hp : Vec3)
    (hfind : findClosestCell point ((hexRadius * 1.5 + radius) ^ 2) cells 0 none =
      some (j, d, hp))
    (hinv : ShieldInv cells) :
    ((Shield.checkHit point radius damage cells).2 = ⟨true, some hp⟩) ∧
    (∃ c, cells.get? j = some c ∧ hp = c.pos ∧ c.alive = true ∧ 0 < c.health) ∧
    (1 < damage →
      ∀ (i : ℕ) (c : HexCell), cells.get? i = some c →
        (Shield.checkHit point radius damage cells).1.get? i =
          some (if c.alive = true ∧ Vec3.distSq hp c.pos ≤ blastRadius ^ 2
            then { c with health := 0, alive := false } else c)) ∧
    (¬ 1 < damage →
      (∀ (i : ℕ) (c : HexCell), cells.get? i = some c → i ≠ j →
        (Shield.checkHit point radius damage cells).1.get? i = some c) ∧
      (∀ c, cells.get? j = some c →
        (Shield.checkHit point radius damage cells).1.get? j =
          some { c with
                  health := c.health - damage,
                  alive := if c.health - damage ≤ 0 then false else c.alive })) := by
  have hsel : ∃ c, cells.get? j = some c ∧ hp = c.pos ∧ c.alive = true ∧ 0 < c.health := by
    rcases findClosestCell_some_spec _ _ _ 0 none j d hp hfind with
      hbest | ⟨k, c, hk, hjk, halive, hhealth, _, hpos, _⟩
    · exact absurd hbest (by simp)
    · exact ⟨c, by rwa [hjk, Nat.zero_add], hpos, halive, hhealth⟩
  obtain ⟨cj, hgetj, hhp, hjalive, hjhealth⟩ := hsel
  refine ⟨?_, ⟨cj, hgetj, hhp, hjalive, hjhealth⟩, ?_, ?_⟩
  · simp [Shield.checkHit, hfind]
  · intro hdmg i c hget
    have : (Shield.checkHit point radius damage cells).1 = blastCells hp cells := by
      simp only [Shield.checkHit, hfind]
      rw [if_pos hdmg]
      exact normalizeCells_of_inv _ (blastCells_inv hp cells hinv)
    rw [this]
    unfold blastCells
    rw [List.get?_map, hget]
    rfl
  · intro hdmg
    have heq : (Shield.checkHit point radius damage cells).1 =
        damageClosestCell j damage cells := by
      simp only [Shield.checkHit, hfind]
      rw [if_neg hdmg]
      exact normalizeCells_of_inv _ (damageClosestCell_inv j damage cells hinv)
    constructor
    · intro i c hget hij
      rw [heq]
      unfold damageClosestCell
      rw [hgetj]
      simp only
      rw [List.get?_set_ne _ _ (fun h => hij h.symm)]
      exact hget
    · intro c hget
      rw [hgetj] at hget
      injection hget with hget
      subst hget
      rw [heq]
      unfold damageClosestCell
      rw [hgetj]
      simp only
      rw [List.get?_set_eq, hgetj]
      rfl

/-- Witness for C2 (Scenario C): a three-cell barrier hit at the first
cell's position.  With damage 50 the cell 2 units away (inside the blast
radius 3) is destroyed outright while the cell 10 units away is untouched;
with damage 1 only the nearest cell is decremented and the others are
untouched. -/
theorem checkHit_blast_and_single_semantics_witness :
    ((Shield.checkHit ⟨0, 0, -100⟩ 1 50
        [⟨0, 0, 0, 0, -100, 3, 3, true⟩, ⟨1, 0, 2, 0, -100, 3, 3, true⟩,
         ⟨2, 0, 10, 0, -100, 3, 3, true⟩]).1.get? 1 =
      some ⟨1, 0, 2, 0, -100, 0, 3, false⟩) ∧
    ((Shield.checkHit ⟨0, 0, -100⟩ 1 50
        [⟨0, 0, 0, 0, -100, 3, 3, true⟩, ⟨1, 0, 2, 0, -100, 3, 3, true⟩,
         ⟨2, 0, 10, 0, -100, 3, 3, true⟩]).1.get? 2 =
      some ⟨2, 0, 10, 0, -100, 3, 3, true⟩) ∧
    ((Shield.checkHit ⟨0, 0, -100⟩ 1 50
        [⟨0, 0, 0, 0, -100, 3, 3, true⟩, ⟨1, 0, 2, 0, -100, 3, 3, true⟩,
         ⟨2, 0, 10, 0, -100, 3, 3, true⟩]).2 = ⟨true, some ⟨0, 0, -100⟩⟩) ∧
    ((Shield.checkHit ⟨0, 0, -100⟩ 1 1
        [⟨0, 0, 0, 0, -100, 3, 3, true⟩, ⟨1, 0, 2, 0, -100, 3, 3, true⟩,
         ⟨2, 0, 10, 0, -100, 3, 3, true⟩]).1.get? 0 =
      some ⟨0, 0, 0, 0, -100, 2, 3, true⟩) ∧
    ((Shield.checkHit ⟨0, 0, -100⟩ 1 1
        [⟨0, 0, 0, 0, -100, 3, 3, true⟩, ⟨1, 0, 2, 0, -100, 3, 3, true⟩,
         ⟨2, 0, 10, 0, -100, 3, 3, true⟩]).1.get? 2 =
      some ⟨2, 0, 10, 0, -100, 3, 3, true⟩) := by
  have hfind : findClosestCell ⟨0, 0, -100⟩ ((hexRadius * 1.5 + 1) ^ 2)
      [⟨0, 0, 0, 0, -100, 3, 3, true⟩, ⟨1, 0, 2, 0, -100, 3, 3, true⟩,
       ⟨2, 0, 10, 0, -100, 3, 3, true⟩] 0 none = some (0, 0, ⟨0, 0, -100⟩) := by
    norm_num [findClosestCell, Vec3.distSq, HexCell.pos, hexRadius]
  have hinv : ShieldInv
      [⟨0, 0, 0, 0, -100, 3, 3, true⟩, ⟨1, 0, 2, 0, -100, 3, 3, true⟩,
       ⟨2, 0, 10, 0, -100, 3, 3, true⟩] := by decide
  have h50 := checkHit_blast_and_single_semantics ⟨0, 0, -100⟩ 1 50 _ 0 0 ⟨0, 0, -100⟩
    hfind hinv
  have h1 := checkHit_blast_and_single_semantics ⟨0, 0, -100⟩ 1 1 _ 0 0 ⟨0, 0, -100⟩
    hfind hinv
  refine ⟨?_, ?_, h50.1, ?_, ?_⟩
  · rw [h50.2.2.1 (by norm_num) 1 _ rfl]
    norm_num [Vec3.distSq, HexCell.pos, blastRadius, hexRadius, playerDamageRadius]
  · rw [h50.2.2.1 (by norm_num) 2 _ rfl]
    norm_num [Vec3.distSq, HexCell.pos, blastRadius, hexRadius, playerDamageRadius]
  · rw [(h1.2.2.2 (by norm_num)).2 _ rfl]
    norm_num
  · exact (h1.2.2.2 (by norm_num)).1 2 _ rfl (by decide)

/-- C3: a swarm projectile that hits no barrier registers a player hit
exactly when the horizontal-plane squared distance (x and z only — the
vertical component never enters the comparison) is strictly below the square
of `8 + projectile radius`.  A projectile exactly on the boundary is not a
hit; for any nonnegative radius, one unit closer it is a hit. -/
theorem alien_projectile_player_hit_iff (proj : Projectile) (shields : List Shield)
    (playerPos : Vec3) (res : CollisionResult)
    (hscan : (shieldScan proj.pos proj.radius 1 shields).2 = none)
    (hres : res.playerHit = false) :
    ((CollisionSystem.checkAlienProjectile proj shields playerPos res).2.playerHit = true ↔
      (proj.pos.x - playerPos.x) * (proj.pos.x - playerPos.x) +
        (proj.pos.z - playerPos.z) * (proj.pos.z - playerPos.z) <
        (8 + proj.radius) * (8 + proj.radius)) ∧
    ((proj.pos.x - playerPos.x) * (proj.pos.x - playerPos.x) +
        (proj.pos.z - playerPos.z) * (proj.pos.z - playerPos.z) =
        (8 + proj.radius) * (8 + proj.radius) →
      (CollisionSystem.checkAlienProjectile proj shields playerPos res).2.playerHit = false) ∧
    (0 ≤ proj.radius →
      (proj.pos.x - playerPos.x) * (proj.pos.x - playerPos.x) +
        (proj.pos.z - playerPos.z) * (proj.pos.z - playerPos.z) =
        (7 + proj.radius) * (7 + proj.radius) →
      (CollisionSystem.checkAlienProjectile proj shields playerPos res).2.playerHit = true) := by
  unfold CollisionSystem.checkAlienProjectile
  rcases hphase : shieldScan proj.pos proj.radius 1 shields with ⟨shields1, o⟩
  have ho : o = none := by
    rw [hphase] at hscan
    simpa using hscan
  subst ho
  simp only
  by_cases hlt : (proj.pos.x - playerPos.x) * (proj.pos.x - playerPos.x) +
      (proj.pos.z - playerPos.z) * (proj.pos.z - playerPos.z) <
      (8 + proj.radius) * (8 + proj.radius)
  · rw [if_pos hlt]
    refine ⟨by simpa using hlt, ?_, fun _ _ => rfl⟩
    intro heq
    rw [heq] at hlt
    exact absurd hlt (lt_irrefl _)
  · rw [if_neg hlt]
    refine ⟨by simpa [hres] using hlt, fun _ => hres, ?_⟩
    intro hrad heq
    exfalso
    apply hlt
    rw [heq]
    nlinarith

/-- Witness for C3 (Scenario D): against a player at x = 0, z = 0 (and any
heights), a radius-2 swarm shot at horizontal distance exactly 10 = 8 + 2 is
not a hit; at distance 9, one unit closer, it is. -/
theorem alien_projectile_player_hit_iff_witness :
    ((CollisionSystem.checkAlienProjectile ⟨ProjectileType.alien, ⟨10, 5, 0⟩, 2⟩ []
        ⟨0, 9, 0⟩ {}).2.playerHit = false) ∧
    ((CollisionSystem.checkAlienProjectile ⟨ProjectileType.alien, ⟨9, 5, 0⟩, 2⟩ []
        ⟨0, 9, 0⟩ {}).2.playerHit = true) :=
  ⟨(alien_projectile_player_hit_iff ⟨ProjectileType.alien, ⟨10, 5, 0⟩, 2⟩ [] ⟨0, 9, 0⟩ {}
      rfl rfl).2.1 (by norm_num),
   (alien_projectile_player_hit_iff ⟨ProjectileType.alien, ⟨9, 5, 0⟩, 2⟩ [] ⟨0, 9, 0⟩ {}
      rfl rfl).2.2 (by norm_num) (by norm_num)⟩

/-- Characterization of the entity scan: a successful scan returns the index
of the first alive, overlapping entity — the entity at that index overlaps,
and no earlier entity does. -/
theorem findFirstAlienHit_some_spec (proj : Projectile) (l : List Alien) :
    ∀ (n i : ℕ), findFirstAlienHit proj l n = some i →
      ∃ k, i = n + k ∧
        (∃ a, l.get? k = some a ∧ proj.overlapsAlien a) ∧
        (∀ m, m < k → ∀ b, l.get? m = some b → ¬ proj.overlapsAlien b) := by
  induction l with
  | nil => intro n i h; simp [findFirstAlienHit] at h
  | cons a rest ih =>
    intro n i h
    simp only [findFirstAlienHit] at h
    split at h
    case isTrue hcond =>
      injection h with h
      refine ⟨0, by omega, ⟨a, rfl, ?_⟩, fun m hm => by omega⟩
      simp only [Bool.and_eq_true, decide_eq_true_eq] at hcond
      exact ⟨hcond.1, hcond.2⟩
    case isFalse hcond =>
      obtain ⟨k, hik, ⟨b, hb, hov⟩, hearlier⟩ := ih (n + 1) i h
      refine ⟨k + 1, by omega, ⟨b, hb, hov⟩, ?_⟩
      intro m hm c hc
      cases m with
      | zero =>
        injection hc with hc
        subst hc
        intro hov0
        apply hcond
        simp only [Bool.and_eq_true, decide_eq_true_eq]
        exact ⟨hov0.1, hov0.2⟩
      | succ m0 =>
        exact hearlier m0 (by omega) c hc

/-- C1: resolution of a player projectile that overlaps at least one alive
entity.  The first alive overlapping entity (in storage order) ends the
resolution: it is marked dead (hidden), exactly one kill record carrying its
index, point value and position and exactly one spent-projectile record are
appended, and the barriers — bounding boxes, cells, health, alive flags —
are returned untouched, as are the barrier-hit records and the player-hit
flag. -/
theorem player_projectile_first_entity_wins (proj : Projectile)
    (aliens : List Alien) (shields : List Shield) (res : CollisionResult) (i : ℕ)
    (hfind : findFirstAlienHit proj aliens 0 = some i) :
    ∃ a, aliens.get? i = some a ∧ proj.overlapsAlien a ∧
      (∀ m, m < i → ∀ b, aliens.get? m = some b → ¬ proj.overlapsAlien b) ∧
      CollisionSystem.checkPlayerProjectile proj aliens shields res =
        (aliens.set i a.hide, shields,
         { res with
             alienHits := res.alienHits ++ [⟨i, a.points, a.pos⟩],
             destroyedProjectiles := res.destroyedProjectiles ++ [proj] }) := by
  obtain ⟨k, hik, ⟨a, hk, hov⟩, hearlier⟩ :=
    findFirstAlienHit_some_spec proj aliens 0 i hfind
  have hik0 : i = k := by omega
  subst hik0
  refine ⟨a, hk, hov, hearlier, ?_⟩
  unfold CollisionSystem.checkPlayerProjectile
  rw [hfind]
  simp only
  rw [hk]

/-- Witness for C1 (Scenario B): a player shot coincident with an alive
entity's center and with an alive barrier cell behind it kills only the
entity — one kill record, one spent record — and leaves the barrier (and
its cell's health and alive flag) bit-for-bit unchanged.  The dead entity
stored before the target shows that only alive entities are considered. -/
theorem player_projectile_first_entity_wins_witness :
    CollisionSystem.checkPlayerProjectile ⟨ProjectileType.player, ⟨0, 10, -100⟩, 1⟩
      [{ alive := false, pos := ⟨0, 10, -100⟩ },
       { pos := ⟨0, 10, -100⟩, boundingRadius := 2, points := 30 }]
      [{ position := ⟨0, 0, -100⟩, cells := [⟨0, 0, 0, 10, -100, 3, 3, true⟩] }] {} =
    ([{ alive := false, pos := ⟨0, 10, -100⟩ },
      ({ pos := ⟨0, 10, -100⟩, boundingRadius := 2, points := 30 } : Alien).hide],
     [{ position := ⟨0, 0, -100⟩, cells := [⟨0, 0, 0, 10, -100, 3, 3, true⟩] }],
     { alienHits := [⟨1, 30, ⟨0, 10, -100⟩⟩],
       destroyedProjectiles := [⟨ProjectileType.player, ⟨0, 10, -100⟩, 1⟩] }) := by
  obtain ⟨a, ha, _, _, heq⟩ :=
    player_projectile_first_entity_wins ⟨ProjectileType.player, ⟨0, 10, -100⟩, 1⟩
      [{ alive := false, pos := ⟨0, 10, -100⟩ },
       { pos := ⟨0, 10, -100⟩, boundingRadius := 2, points := 30 }]
      [{ position := ⟨0, 0, -100⟩, cells := [⟨0, 0, 0, 10, -100, 3, 3, true⟩] }] {} 1
      (by norm_num [findFirstAlienHit, Vec3.distSq])
  injection ha with ha
  subst ha
  rw [heq]
  simp

/-- Counterexample to C6 as stated: an entity in `Returning` whose start is
0.9 units from its formation slot (the square-root routine is exact here:
`(9/10)^2 = 81/100`) completes the cycle — its motion state resets to
`Formation` — while its position stays 0.9 units away from its current
grid-derived formation position, far beyond floating tolerance: the
`returnDistance < 1` short-circuit resets the state without re-pinning the
position. -/
theorem dive_cycle_roundtrip_counterexample :
    ((9/10 : ℚ) * (9/10) = 81/100) ∧
    ((AlienFormation.updateDivingAlien (fun _ => 0)
        (fun q => if q = 81/100 then 9/10 else 0) 1
        { diveState := DiveState.returning, pos := ⟨9/10, 60, -300⟩,
          diveStartPos := ⟨9/10, 60, -300⟩,
          formationPos := ⟨0, 60, -300⟩ }).diveState = DiveState.none) ∧
    ((AlienFormation.updateDivingAlien (fun _ => 0)
        (fun q => if q = 81/100 then 9/10 else 0) 1
        { diveState := DiveState.returning, pos := ⟨9/10, 60, -300⟩,
          diveStartPos := ⟨9/10, 60, -300⟩,
          formationPos := ⟨0, 60, -300⟩ }).pos.x = 9/10) ∧
    ((AlienFormation.updateDivingAlien (fun _ => 0)
        (fun q => if q = 81/100 then 9/10 else 0) 1
        { diveState := DiveState.returning, pos := ⟨9/10, 60, -300⟩,
          diveStartPos := ⟨9/10, 60, -300⟩,
          formationPos := ⟨0, 60, -300⟩ }).pos ≠
      (AlienFormation.updateDivingAlien (fun _ => 0)
        (fun q => if q = 81/100 then 9/10 else 0) 1
        { diveState := DiveState.returning, pos := ⟨9/10, 60, -300⟩,
          diveStartPos := ⟨9/10, 60, -300⟩,
          formationPos := ⟨0, 60, -300⟩ }).formationPos) := by
  have heq : AlienFormation.updateDivingAlien (fun _ => 0)
      (fun q => if q = 81/100 then 9/10 else 0) 1
      { diveState := DiveState.returning, pos := ⟨9/10, 60, -300⟩,
        diveStartPos := ⟨9/10, 60, -300⟩, formationPos := ⟨0, 60, -300⟩ } =
      ({ diveState := DiveState.returning, pos := ⟨9/10, 60, -300⟩,
         diveStartPos := ⟨9/10, 60, -300⟩,
         formationPos := ⟨0, 60, -300⟩ } : Alien).resetDive := by
    simp only [AlienFormation.updateDivingAlien]
    rw [if_pos (by norm_num [Vec3.distSq])]
  rw [heq]
  refine ⟨by norm_num, rfl, rfl, ?_⟩
  intro h
  have := congrArg Vec3.x h
  norm_num [Alien.resetDive] at this

/-- C6 (amended): when a return completes because its progress reaches 1,
the entity's motion state resets to `Formation` and its position is set
exactly to its current grid-derived formation position (`formationPos`,
which sweep steps keep refreshed during the dive) — regardless of the
square-root routine and sine table.  When the return instead short-circuits
because the computed start-to-formation distance is below 1 unit, the state
resets but the position is left where it was. -/
theorem dive_cycle_roundtrip_amended :
    (∀ (sinPi sq : ℚ → ℚ) (deltaTime : ℚ) (a : Alien),
      a.diveState = DiveState.returning →
      ¬ sq (Vec3.distSq a.diveStartPos a.formationPos) < 1 →
      a.diveProgress + returnSpeed * deltaTime /
        sq (Vec3.distSq a.diveStartPos a.formationPos) ≥ 1 →
      AlienFormation.updateDivingAlien sinPi sq deltaTime a =
        { a.resetDive with pos := a.formationPos } ∧
      (AlienFormation.updateDivingAlien sinPi sq deltaTime a).pos =
        (AlienFormation.updateDivingAlien sinPi sq deltaTime a).formationPos) ∧
    (∀ (sinPi sq : ℚ → ℚ) (deltaTime : ℚ) (a : Alien),
      a.diveState = DiveState.returning →
      sq (Vec3.distSq a.diveStartPos a.formationPos) < 1 →
      AlienFormation.updateDivingAlien sinPi sq deltaTime a = a.resetDive ∧
      (AlienFormation.updateDivingAlien sinPi sq deltaTime a).pos = a.pos) := by
  constructor
  · intro sinPi sq deltaTime a h1 h2 h3
    have heq : AlienFormation.updateDivingAlien sinPi sq deltaTime a =
        { a.resetDive with pos := a.formationPos } := by
      simp only [AlienFormation.updateDivingAlien, h1]
      rw [if_neg h2, if_pos h3]
    exact ⟨heq, by rw [heq]; rfl⟩
  · intro sinPi sq deltaTime a h1 h2
    have heq : AlienFormation.updateDivingAlien sinPi sq deltaTime a = a.resetDive := by
      simp only [AlienFormation.updateDivingAlien, h1]
      rw [if_pos h2]
    exact ⟨heq, by rw [heq]; rfl⟩

/-- Witness for the amended C6: a return from 100 units below/behind the
formation slot (exact square root: `sq 10000 = 100`) with enough frame time
to finish lands exactly on the formation position; a return already within a
unit resets in place. -/
theorem dive_cycle_roundtrip_amended_witness :
    (AlienFormation.updateDivingAlien (fun _ => 0)
        (fun q => if q = 10000 then 100 else 0) 2
        { diveState := DiveState.returning, pos := ⟨0, 60, -300⟩,
          diveStartPos := ⟨0, 60, -300⟩, formationPos := ⟨0, 60, -200⟩ } =
      { ({ diveState := DiveState.returning, pos := ⟨0, 60, -300⟩,
           diveStartPos := ⟨0, 60, -300⟩,
           formationPos := ⟨0, 60, -200⟩ } : Alien).resetDive with
          pos := ⟨0, 60, -200⟩ }) ∧
    (AlienFormation.updateDivingAlien (fun _ => 0) (fun _ => 0) 1
        { diveState := DiveState.returning, pos := ⟨0, 60, -250⟩,
          diveStartPos := ⟨0, 60, -250⟩, formationPos := ⟨0, 60, -250⟩ } =
      ({ diveState := DiveState.returning, pos := ⟨0, 60, -250⟩,
         diveStartPos := ⟨0, 60, -250⟩,
         formationPos := ⟨0, 60, -250⟩ } : Alien).resetDive) :=
  ⟨(dive_cycle_roundtrip_amended.1 (fun _ => 0) (fun q => if q = 10000 then 100 else 0) 2
      { diveState := DiveState.returning, pos := ⟨0, 60, -300⟩,
        diveStartPos := ⟨0, 60, -300⟩, formationPos := ⟨0, 60, -200⟩ }
      rfl (by norm_num [Vec3.distSq]) (by norm_num [Vec3.distSq, returnSpeed])).1,
   (dive_cycle_roundtrip_amended.2 (fun _ => 0) (fun _ => 0) 1
      { diveState := DiveState.returning, pos := ⟨0, 60, -250⟩,
        diveStartPos := ⟨0, 60, -250⟩, formationPos := ⟨0, 60, -250⟩ }
      rfl (by norm_num [Vec3.distSq])).1⟩

/-- `updateFlyIn` on an entity still waiting whose delay has not elapsed:
no change, not arrived. -/
theorem updateFlyIn_waiting_early (sq : ℚ → ℚ) (dt e : ℚ) (a : Alien)
    (h1 : a.flyInState = FlyInState.waiting) (h2 : ¬ e ≥ a.flyInDelay) :
    a.updateFlyIn sq dt e = (a, false) := by
  simp only [Alien.updateFlyIn, h1]
  rw [if_neg h2]

/-- `updateFlyIn` on a waiting entity whose delay has elapsed: it flips to
flying (and becomes visible) but accrues no flight progress on this call,
and does not report arrival. -/
theorem updateFlyIn_waiting_flip (sq : ℚ → ℚ) (dt e : ℚ) (a : Alien)
    (h1 : a.flyInState = FlyInState.waiting) (h2 : e ≥ a.flyInDelay) :
    a.updateFlyIn sq dt e =
      ({ a with flyInState := FlyInState.flying, visible := true }, false) := by
  simp only [Alien.updateFlyIn, h1]
  rw [if_pos h2]

/-- `updateFlyIn` on a flying entity that has not yet reached progress 1:
progress accrues by `flySpeed·dt / distance` and the position eases along
the spawn-to-formation segment. -/
theorem updateFlyIn_flying_step (sq : ℚ → ℚ) (dt e : ℚ) (a : Alien)
    (h1 : a.flyInState = FlyInState.flying)
    (h2 : ¬ a.flyInProgress + 120 * dt / sq (Vec3.distSq a.flyInStartPos a.formationPos) ≥ 1) :
    a.updateFlyIn sq dt e =
      ({ a with
          flyInProgress := a.flyInProgress + 120 * dt /
            sq (Vec3.distSq a.flyInStartPos a.formationPos),
          pos := flyInEasePos a.flyInStartPos a.formationPos
            (a.flyInProgress + 120 * dt /
              sq (Vec3.distSq a.flyInStartPos a.formationPos)) }, false) := by
  simp only [Alien.updateFlyIn, h1]
  rw [if_neg h2]

/-- `updateFlyIn` on a flying entity whose progress reaches 1 on this call:
it arrives, snapping to the formation position. -/
theorem updateFlyIn_flying_arrive (sq : ℚ → ℚ) (dt e : ℚ) (a : Alien)
    (h1 : a.flyInState = FlyInState.flying)
    (h2 : a.flyInProgress + 120 * dt / sq (Vec3.distSq a.flyInStartPos a.formationPos) ≥ 1) :
    a.updateFlyIn sq dt e =
      ({ a with
          flyInState := FlyInState.arrived,
          flyInProgress := 1,
          pos := a.formationPos }, true) := by
  simp only [Alien.updateFlyIn, h1]
  rw [if_pos h2]

/-- `updateIntro` when the intro is not active returns immediately. -/
theorem updateIntro_inactive (sq : ℚ → ℚ) (dt : ℚ) (f : AlienFormation)
    (h : f.introActive = false) :
    AlienFormation.updateIntro sq dt f = (f, true) := by
  simp [AlienFormation.updateIntro, h]

/-- One `updateIntro` call on a single-entity intro state: the clock
advances and the entity is put through `updateFlyIn` against it; the call
reports completion exactly when that entity reports arrival. -/
theorem updateIntro_introState_singleton (sq : ℚ → ℚ) (dt : ℚ)
    (f : AlienFormation) (al : Alien) (e : ℚ) :
    AlienFormation.updateIntro sq dt (f.introState [al] e) =
      (if (al.updateFlyIn sq dt (e + dt)).2 then
        (({ f.introState [(al.updateFlyIn sq dt (e + dt)).1] (e + dt) with
            introActive := false }).updateAlienBrightness, true)
       else (f.introState [(al.updateFlyIn sq dt (e + dt)).1] (e + dt), false)) := by
  simp only [AlienFormation.updateIntro, AlienFormation.introState]
  simp only [Bool.not_true, List.map_cons, List.map_nil, List.all_cons, List.all_nil,
    Bool.and_true, if_false]
  rcases hr : al.updateFlyIn sq dt (e + dt) with ⟨a1, arr⟩
  cases arr <;> simp

/-- Counterexample to C8 as stated: one entity, delay 0, spawn 120 units
above its slot (flight duration `120/120 = 1` at fly speed 120; the
square-root routine is exact: `120^2 = 14400`), constant frame time 1.  The
accumulated intro time reaches `max(delay + flightDuration) = 1` during call
1, yet call 1 returns incomplete — the waiting→flying hand-off consumes that
call — and completion arrives on call 2, one frame later. -/
theorem intro_completion_exact_call_counterexample :
    (Vec3.distSq ⟨0, 180, -300⟩ ⟨0, 60, -300⟩ = 14400) ∧
    ((120 : ℚ) * 120 = 14400) ∧
    ((0 : ℚ) + 120 / 120 = 1) ∧
    ((AlienFormation.introIter (fun q => if q = 14400 then 120 else 0) 1
        (({} : AlienFormation).introState
          [({} : Alien).startFlyIn ⟨0, 180, -300⟩ ⟨0, 60, -300⟩ 0] 0)
        1).1.introElapsedTime = 1) ∧
    ((AlienFormation.introIter (fun q => if q = 14400 then 120 else 0) 1
        (({} : AlienFormation).introState
          [({} : Alien).startFlyIn ⟨0, 180, -300⟩ ⟨0, 60, -300⟩ 0] 0)
        1).2 = false) ∧
    ((AlienFormation.introIter (fun q => if q = 14400 then 120 else 0) 1
        (({} : AlienFormation).introState
          [({} : Alien).startFlyIn ⟨0, 180, -300⟩ ⟨0, 60, -300⟩ 0] 0)
        2).2 = true) := by
  have hflip : (({} : Alien).startFlyIn ⟨0, 180, -300⟩ ⟨0, 60, -300⟩ 0).updateFlyIn
      (fun q => if q = 14400 then 120 else 0) 1 (0 + 1) =
      ({ ({} : Alien).startFlyIn ⟨0, 180, -300⟩ ⟨0, 60, -300⟩ 0 with
          flyInState := FlyInState.flying, visible := true }, false) :=
    updateFlyIn_waiting_flip _ _ _ _ rfl (by norm_num [Alien.startFlyIn])
  have e1 : AlienFormation.introIter (fun q => if q = 14400 then 120 else 0) 1
      (({} : AlienFormation).introState
        [({} : Alien).startFlyIn ⟨0, 180, -300⟩ ⟨0, 60, -300⟩ 0] 0) 1 =
      (({} : AlienFormation).introState
        [{ ({} : Alien).startFlyIn ⟨0, 180, -300⟩ ⟨0, 60, -300⟩ 0 with
            flyInState := FlyInState.flying, visible := true }] (0 + 1), false) := by
    show AlienFormation.updateIntro (fun q => if q = 14400 then 120 else 0) 1
      (({} : AlienFormation).introState
        [({} : Alien).startFlyIn ⟨0, 180, -300⟩ ⟨0, 60, -300⟩ 0] 0) = _
    rw [updateIntro_introState_singleton, hflip]
    rfl
  have harr : ({ ({} : Alien).startFlyIn ⟨0, 180, -300⟩ ⟨0, 60, -300⟩ 0 with
        flyInState := FlyInState.flying, visible := true } : Alien).updateFlyIn
      (fun q => if q = 14400 then 120 else 0) 1 (0 + 1 + 1) =
      ({ ({ ({} : Alien).startFlyIn ⟨0, 180, -300⟩ ⟨0, 60, -300⟩ 0 with
            flyInState := FlyInState.flying, visible := true } : Alien) with
          flyInState := FlyInState.arrived,
          flyInProgress := 1,
          pos := ⟨0, 60, -300⟩ }, true) :=
    updateFlyIn_flying_arrive _ _ _ _ rfl
      (by norm_num [Alien.startFlyIn, Vec3.distSq])
  have e2 : (AlienFormation.introIter (fun q => if q = 14400 then 120 else 0) 1
      (({} : AlienFormation).introState
        [({} : Alien).startFlyIn ⟨0, 180, -300⟩ ⟨0, 60, -300⟩ 0] 0) 2).2 = true := by
    show (AlienFormation.updateIntro (fun q => if q = 14400 then 120 else 0) 1
      (AlienFormation.introIter (fun q => if q = 14400 then 120 else 0) 1
        (({} : AlienFormation).introState
          [({} : Alien).startFlyIn ⟨0, 180, -300⟩ ⟨0, 60, -300⟩ 0] 0) 1).1).2 = true
    rw [e1]
    simp only
    rw [updateIntro_introState_singleton, harr]
    simp
  refine ⟨by norm_num [Vec3.distSq], by norm_num, by norm_num, ?_, ?_, e2⟩
  · rw [e1]
    norm_num [AlienFormation.introState]
  · rw [e1]

/-- C8 (amended): exact completion-call characterization of the intro under
constant frame time, for a single entity with delay `d` and code-computed
flight distance `L`.  Let `w` be the first call at which the accumulated
intro time reaches `d` (the call consumed by the waiting→flying hand-off,
which accrues no flight progress), and `m` the number of flying calls needed
for the progress increments `120·dt/L` to reach 1.  Then `updateIntro`
first returns complete on call `w + m` exactly — never earlier, and (as the
counterexample shows) this is in general one call after the elapsed time
passes `d + L/120`, not that exact call. -/
theorem intro_completion_call_amended
    (sq : ℚ → ℚ) (deltaTime d L : ℚ) (spawn target : Vec3) (base : Alien)
    (f : AlienFormation)
    (hL : sq (Vec3.distSq spawn target) = L)
    (w m : ℕ) (hw1 : 1 ≤ w) (hw2 : d ≤ (w : ℚ) * deltaTime)
    (hw3 : ∀ k : ℕ, 1 ≤ k → k < w → (k : ℚ) * deltaTime < d)
    (hm1 : 1 ≤ m) (hm2 : 1 ≤ (m : ℚ) * (120 * deltaTime / L))
    (hm3 : ∀ j : ℕ, 1 ≤ j → j < m → (j : ℚ) * (120 * deltaTime / L) < 1) :
    ∀ n : ℕ,
      (AlienFormation.introIter sq deltaTime
        (f.introState [base.startFlyIn spawn target d] 0) n).2 = true ↔ w + m ≤ n := by
  have hcast : ∀ k : ℕ, (k : ℚ) * deltaTime + deltaTime = ((k + 1 : ℕ) : ℚ) * deltaTime := by
    intro k; push_cast; ring
  -- Phase 1: while the delay has not elapsed the entity stays waiting.
  have phase1 : ∀ n, n < w →
      AlienFormation.introIter sq deltaTime
        (f.introState [base.startFlyIn spawn target d] 0) n =
      (f.introState [base.startFlyIn spawn target d] ((n : ℚ) * deltaTime), false) := by
    intro n
    induction n with
    | zero =>
      intro _
      simp only [AlienFormation.introIter, Nat.cast_zero, zero_mul]
    | succ k ih =>
      intro hkw
      show AlienFormation.updateIntro sq deltaTime
        (AlienFormation.introIter sq deltaTime
          (f.introState [base.startFlyIn spawn target d] 0) k).1 = _
      rw [ih (by omega)]
      simp only
      rw [updateIntro_introState_singleton,
        updateFlyIn_waiting_early sq deltaTime _ _ rfl
          (by
            show ¬ (k : ℚ) * deltaTime + deltaTime ≥
              (base.startFlyIn spawn target d).flyInDelay
            rw [hcast k]
            show ¬ ((k + 1 : ℕ) : ℚ) * deltaTime ≥ d
            push_neg
            exact hw3 (k + 1) (by omega) hkw)]
      simp only
      rw [hcast k]
      rfl
  -- Phase 2: the call on which the delay elapses flips the entity to flying.
  have phase2 :
      AlienFormation.introIter sq deltaTime
        (f.introState [base.startFlyIn spawn target d] 0) w =
      (f.introState
        [{ base.startFlyIn spawn target d with
            flyInState := FlyInState.flying, visible := true }]
        ((w : ℚ) * deltaTime), false) := by
    rcases Nat.exists_eq_add_of_le hw1 with ⟨w0, rfl⟩
    rw [Nat.add_comm 1 w0]
    show AlienFormation.updateIntro sq deltaTime
      (AlienFormation.introIter sq deltaTime
        (f.introState [base.startFlyIn spawn target d] 0) w0).1 = _
    rw [phase1 w0 (by omega)]
    simp only
    rw [updateIntro_introState_singleton,
      updateFlyIn_waiting_flip sq deltaTime _ _ rfl
        (by
          show (w0 : ℚ) * deltaTime + deltaTime ≥ (base.startFlyIn spawn target d).flyInDelay
          rw [hcast w0]
          rw [show w0 + 1 = 1 + w0 from Nat.add_comm w0 1]
          exact hw2)]
    simp only
    rw [hcast w0]
    rfl
  -- Phase 3: each flying call accrues one progress increment, short of 1.
  have phase3 : ∀ j, j < m → ∃ p : Vec3,
      AlienFormation.introIter sq deltaTime
        (f.introState [base.startFlyIn spawn target d] 0) (w + j) =
      (f.introState
        [{ base.startFlyIn spawn target d with
            flyInState := FlyInState.flying, visible := true,
            flyInProgress := (j : ℚ) * (120 * deltaTime / L), pos := p }]
        (((w + j : ℕ) : ℚ) * deltaTime), false) := by
    intro j
    induction j with
    | zero =>
      intro _
      refine ⟨spawn, ?_⟩
      simp only [Nat.cast_zero, zero_mul, Nat.add_zero]
      exact phase2
    | succ k ih =>
      intro hkm
      obtain ⟨p, hp⟩ := ih (by omega)
      have hstep : AlienFormation.introIter sq deltaTime
          (f.introState [base.startFlyIn spawn target d] 0) (w + (k + 1)) =
          AlienFormation.updateIntro sq deltaTime
            (AlienFormation.introIter sq deltaTime
              (f.introState [base.startFlyIn spawn target d] 0) (w + k)).1 := rfl
      refine ⟨flyInEasePos spawn target
        ((k : ℚ) * (120 * deltaTime / L) + 120 * deltaTime /
          sq (Vec3.distSq spawn target)), ?_⟩
      rw [hstep, hp]
      simp only
      rw [updateIntro_introState_singleton,
        updateFlyIn_flying_step sq deltaTime _ _ rfl
          (by
            show ¬ (k : ℚ) * (120 * deltaTime / L) + 120 * deltaTime /
              sq (Vec3.distSq spawn target) ≥ 1
            rw [hL]
            push_neg
            calc (k : ℚ) * (120 * deltaTime / L) + 120 * deltaTime / L
                = ((k + 1 : ℕ) : ℚ) * (120 * deltaTime / L) := by push_cast; ring
              _ < 1 := hm3 (k + 1) (by omega) hkm)]
      simp only [Alien.startFlyIn, hL]
      rw [hcast (w + k)]
      rw [show (k : ℚ) * (120 * deltaTime / L) + 120 * deltaTime / L =
        ((k + 1 : ℕ) : ℚ) * (120 * deltaTime / L) from by push_cast; ring]
      rfl
  -- Completion call: the m-th flying call reaches progress 1 and arrives.
  have phase4 :
      (AlienFormation.introIter sq deltaTime
        (f.introState [base.startFlyIn spawn target d] 0) (w + m)).2 = true ∧
      (AlienFormation.introIter sq deltaTime
        (f.introState [base.startFlyIn spawn target d] 0) (w + m)).1.introActive = false := by
    rcases Nat.exists_eq_add_of_le hm1 with ⟨m0, rfl⟩
    obtain ⟨p, hp⟩ := phase3 m0 (by omega)
    rw [show w + (1 + m0) = (w + m0) + 1 by omega]
    have hstep : AlienFormation.introIter sq deltaTime
        (f.introState [base.startFlyIn spawn target d] 0) ((w + m0) + 1) =
        AlienFormation.updateIntro sq deltaTime
          (AlienFormation.introIter sq deltaTime
            (f.introState [base.startFlyIn spawn target d] 0) (w + m0)).1 := rfl
    rw [hstep, hp]
    simp only
    rw [updateIntro_introState_singleton,
      updateFlyIn_flying_arrive sq deltaTime _ _ rfl
        (by
          show (m0 : ℚ) * (120 * deltaTime / L) + 120 * deltaTime /
            sq (Vec3.distSq spawn target) ≥ 1
          rw [hL]
          calc (1 : ℚ) ≤ ((1 + m0 : ℕ) : ℚ) * (120 * deltaTime / L) := hm2
            _ = (m0 : ℚ) * (120 * deltaTime / L) + 120 * deltaTime / L := by push_cast; ring)]
    constructor
    · simp
    · simp [AlienFormation.updateAlienBrightness, AlienFormation.introState]
  -- After completion the intro is inactive and stays complete.
  have phase5 : ∀ k,
      (AlienFormation.introIter sq deltaTime
        (f.introState [base.startFlyIn spawn target d] 0) ((w + m) + k)).2 = true ∧
      (AlienFormation.introIter sq deltaTime
        (f.introState [base.startFlyIn spawn target d] 0) ((w + m) + k)).1.introActive
        = false := by
    intro k
    induction k with
    | zero => exact phase4
    | succ k0 ih =>
      rw [show (w + m) + (k0 + 1) = ((w + m) + k0) + 1 by omega]
      have hstep : AlienFormation.introIter sq deltaTime
          (f.introState [base.startFlyIn spawn target d] 0) (((w + m) + k0) + 1) =
          AlienFormation.updateIntro sq deltaTime
            (AlienFormation.introIter sq deltaTime
              (f.introState [base.startFlyIn spawn target d] 0) ((w + m) + k0)).1 := rfl
      rw [hstep, updateIntro_inactive sq deltaTime _ ih.2]
      exact ⟨rfl, ih.2⟩
  intro n
  constructor
  · intro htrue
    by_contra hlt
    push_neg at hlt
    by_cases hnw : n < w
    · rw [phase1 n hnw] at htrue
      simp at htrue
    · push_neg at hnw
      obtain ⟨j, rfl⟩ := Nat.exists_eq_add_of_le hnw
      obtain ⟨p, hp⟩ := phase3 j (by omega)
      rw [hp] at htrue
      simp at htrue
  · intro hge
    obtain ⟨k, rfl⟩ := Nat.exists_eq_add_of_le hge
    exact (phase5 k).1

/-- Witness for the amended C8: with one entity, delay 0, flight distance
120 and frame time 1, the waiting→flying call is call 1 (`w = 1`) and one
flying call suffices (`m = 1`); the intro reports complete exactly at call
`w + m = 2` and not at call 1. -/
theorem intro_completion_call_amended_witness :
    ((AlienFormation.introIter (fun q => if q = 14400 then 120 else 0) 1
        (({} : AlienFormation).introState
          [({} : Alien).startFlyIn ⟨0, 180, -300⟩ ⟨0, 60, -300⟩ 0] 0) 2).2 = true ↔
      1 + 1 ≤ 2) ∧
    ((AlienFormation.introIter (fun q => if q = 14400 then 120 else 0) 1
        (({} : AlienFormation).introState
          [({} : Alien).startFlyIn ⟨0, 180, -300⟩ ⟨0, 60, -300⟩ 0] 0) 1).2 = true ↔
      1 + 1 ≤ 1) :=
  ⟨intro_completion_call_amended (fun q => if q = 14400 then 120 else 0) 1 0 120
      ⟨0, 180, -300⟩ ⟨0, 60, -300⟩ {} {} (by norm_num [Vec3.distSq]) 1 1 le_rfl
      (by norm_num) (fun k h1 h2 => absurd h2 (by omega)) le_rfl (by norm_num)
      (fun j h1 h2 => absurd h2 (by omega)) 2,
   intro_completion_call_amended (fun q => if q = 14400 then 120 else 0) 1 0 120
      ⟨0, 180, -300⟩ ⟨0, 60, -300⟩ {} {} (by norm_num [Vec3.distSq]) 1 1 le_rfl
      (by norm_num) (fun k h1 h2 => absurd h2 (by omega)) le_rfl (by norm_num)
      (fun j h1 h2 => absurd h2 (by omega)) 1⟩
